import Mathlib

/-!
# Allegro video backend for FFmpeg (`addons/video/ffmpeg.c`)

A shallow embedding of the playback session kept by `ffmpeg.c`:
the session record, the resource ledger of the external libraries, and the six
operations of the backend (`open`, `close`, `start`, `set_video_playing`, `seek`,
`update`) together with the surface writer.

Conventions.
* A C pointer is an `Option`: `none` is `NULL`.  Pointees that the file only reads
  (stream descriptors, codec contexts) are kept by value.
* A function returns `none` when an `ASSERT` of the source is violated or a `NULL`
  pointer would be dereferenced; otherwise `some` of its C return value and the state.
* Every acquisition and release made through an external library is appended to a
  ledger (`List Event`), oldest first.
* `double` and `float` fields are rationals (rounding is not modelled).
-/

namespace Ffmpeg

/-! ## Definitions -/

/-- Opaque handle standing for a non-NULL C pointer. -/
abbrev Handle := Nat

/-- Pointer to an opaque object; `none` is `NULL`. -/
abbrev Ptr := Option Handle

/-- One byte of pixel memory. -/
abbrev Byte := Nat

/-- Byte-addressed memory around a base pointer (signed offset to byte). -/
abbrev Memory := Int → Byte

/-- Largest value of a C `int`. -/
def INT_MAX : Int := 2147483647

/-- Conversion of an `unsigned int` to `int` (two's complement, 32 bits), as in
`videoStreamIndex = i`. -/
def unsigned_to_int (u : Nat) : Int :=
  if u % 2 ^ 32 < 2 ^ 31 then ((u % 2 ^ 32 : Nat) : Int) else ((u % 2 ^ 32 : Nat) : Int) - 2 ^ 32

/-- Kinds of elementary stream (`enum AVMediaType` of libavutil). -/
inductive AVMediaType
  | unknown
  | video
  | audio
  | data
  | subtitle
  | attachment
  deriving DecidableEq, Repr

/-- The fields of `AVCodecContext` that `ffmpeg.c` reads. -/
structure AVCodecContext where
  codec_type : AVMediaType
  codec_id : Nat
  width : Int
  height : Int
  pix_fmt : Int
  framerate_num : Int
  framerate_den : Int
  sample_rate : Int
  deriving DecidableEq, Repr

/-- One entry of `pFormatCtx->streams`. -/
structure AVStream where
  codec : AVCodecContext
  deriving DecidableEq, Repr

/-- A demuxed packet.  `got_picture` is what `avcodec_decode_video2` stores through
its `got_picture_ptr` argument when it is fed this packet. -/
structure AVPacket where
  stream_index : Nat
  got_picture : Bool
  deriving DecidableEq, Repr

/-- Outcome of one `av_read_frame` call: its return code and the packet it filled. -/
structure ReadResult where
  ret : Int
  packet : AVPacket
  deriving DecidableEq, Repr

/-- An opened container: its streams and the outcomes of the reads still to come.
When `pending` is empty the container is exhausted. -/
structure AVFormatContext where
  streams : List AVStream
  pending : List ReadResult
  deriving DecidableEq, Repr

/-- Return code of `av_read_frame` at end of file (`AVERROR_EOF`). -/
def AVERROR_EOF : Int := -541478725

/-- The demuxer: `av_read_frame` hands out the next pending outcome and advances;
an exhausted container answers `AVERROR_EOF` for ever. -/
def av_read_frame (ctx : AVFormatContext) : Int × Option AVPacket × AVFormatContext :=
  match ctx.pending with
  | [] => (AVERROR_EOF, none, ctx)
  | r :: rest => (r.ret, some r.packet, { ctx with pending := rest })

/-- The part of `AVFrame` used by the file: `data[0]` and `linesize[0]`. -/
structure AVFrame where
  data0 : Ptr
  linesize0 : Int
  deriving DecidableEq, Repr

/-- The struct `al_data` of the source. -/
structure al_data where
  frameBitmap : Ptr
  endOfStream : Bool
  deriving DecidableEq, Repr

/-- The struct `ffmpeg_data` of the source. -/
structure ffmpeg_data where
  ad : al_data
  formatCtx : Option AVFormatContext
  videoCodecCtx : Option AVCodecContext
  audioCodecCtx : Option AVCodecContext
  videoCodec : Ptr
  audioCodec : Ptr
  frameNative : Option AVFrame
  frameRGB : Option AVFrame
  swScaleCtx : Ptr
  bufferRGB : Ptr
  deriving DecidableEq, Repr

/-- Result of `memset(fd, 0, sizeof(ffmpeg_data))`. -/
def ffmpeg_data.zero : ffmpeg_data where
  ad := { frameBitmap := none, endOfStream := false }
  formatCtx := none
  videoCodecCtx := none
  audioCodecCtx := none
  videoCodec := none
  audioCodec := none
  frameNative := none
  frameRGB := none
  swScaleCtx := none
  bufferRGB := none

/-- Modelled from the spec: the session record `ALLEGRO_VIDEO`, declared in
`allegro5/internal/aintern_video.h` (not part of the sources at hand).  It has the
fields that `ffmpeg.c` reads or writes; `data` holds the backend record by value. -/
structure ALLEGRO_VIDEO where
  current_frame : Ptr
  video_position : Rat
  fps : Rat
  scaled_width : Rat
  scaled_height : Rat
  audio_position : Rat
  audio_rate : Rat
  es_inited : Bool
  filename : Option String
  playing : Bool
  position : Rat
  data : Option ffmpeg_data
  deriving DecidableEq

/-- Resources the session acquires from the external libraries. -/
inductive Res
  | formatCtx
  | sessionData
  | videoCodecCtx
  | audioCodecCtx
  | swScaleCtx
  | frameNative
  | frameRGB
  | bufferRGB
  | frameBitmap
  deriving DecidableEq, Repr

/-- One entry of the resource ledger.  `acquire r dims` records a successful
acquisition together with the sizes passed to the allocator; `release r` records a
call of the matching release routine. -/
inductive Event
  | acquire (r : Res) (dims : List Int)
  | release (r : Res)
  deriving DecidableEq, Repr

/-- Number of acquisitions of `r` in a ledger. -/
def acquired (r : Res) : List Event → Nat
  | [] => 0
  | Event.acquire r1 _ :: es => (if r1 = r then 1 else 0) + acquired r es
  | Event.release _ :: es => acquired r es

/-- Number of releases of `r` in a ledger. -/
def released (r : Res) : List Event → Nat
  | [] => 0
  | Event.acquire _ _ :: es => released r es
  | Event.release r1 :: es => (if r1 = r then 1 else 0) + released r es

/-- `ffmpeg_set_video_playing`: forces `playing` to false once the stream has ended. -/
def ffmpeg_set_video_playing (video : ALLEGRO_VIDEO) : Option (Bool × ALLEGRO_VIDEO) :=
  match video.data with
  | none => none
  | some fd =>
    if fd.ad.endOfStream then some (true, { video with playing := false })
    else some (true, video)

/-- The guarded releases of `ffmpeg_close_video`, in source order: each pointer of the
backend record is released when it is non-NULL, and the record itself always (the
source then stores NULL in each field of a record that `al_free` discards). -/
def ffmpeg_close_video_releases (fd : ffmpeg_data) : List Event :=
  (if fd.ad.frameBitmap.isSome then [Event.release Res.frameBitmap] else [])
  ++ (if fd.bufferRGB.isSome then [Event.release Res.bufferRGB] else [])
  ++ (if fd.frameRGB.isSome then [Event.release Res.frameRGB] else [])
  ++ (if fd.frameNative.isSome then [Event.release Res.frameNative] else [])
  ++ (if fd.videoCodec.isSome then [Event.release Res.videoCodecCtx] else [])
  ++ (if fd.audioCodec.isSome then [Event.release Res.audioCodecCtx] else [])
  ++ (if fd.swScaleCtx.isSome then [Event.release Res.swScaleCtx] else [])
  ++ (if fd.formatCtx.isSome then [Event.release Res.formatCtx] else [])
  ++ [Event.release Res.sessionData]

/-- `ffmpeg_close_video`: marks the end of the stream, stops playback, releases what
the backend record holds and detaches the record from the session. -/
def ffmpeg_close_video (video : ALLEGRO_VIDEO) (log : List Event) :
    Option (Bool × ALLEGRO_VIDEO × List Event) :=
  match video.data with
  | none => none
  | some fd =>
    let fd1 : ffmpeg_data := { fd with ad := { fd.ad with endOfStream := true } }
    match ffmpeg_set_video_playing { video with data := some fd1 } with
    | none => none
    | some (_, video1) =>
      some (true, { video1 with data := none }, log ++ ffmpeg_close_video_releases fd1)

/-- The stream scan of `ffmpeg_open_video` (the `for` loop over `streams`): `i` is
the loop counter, the two integers are `videoStreamIndex` and `audioStreamIndex`. -/
def ffmpeg_open_video_scan : List AVStream → Nat → Int → Int → Int × Int
  | [], _, videoStreamIndex, audioStreamIndex => (videoStreamIndex, audioStreamIndex)
  | s :: rest, i, videoStreamIndex, audioStreamIndex =>
    if s.codec.codec_type = AVMediaType.video then
      if videoStreamIndex ≠ -1 then
        ffmpeg_open_video_scan rest (i + 1) videoStreamIndex audioStreamIndex
      else
        ffmpeg_open_video_scan rest (i + 1) (unsigned_to_int i) audioStreamIndex
    else if s.codec.codec_type = AVMediaType.audio then
      if audioStreamIndex ≠ -1 then
        ffmpeg_open_video_scan rest (i + 1) videoStreamIndex audioStreamIndex
      else
        ffmpeg_open_video_scan rest (i + 1) videoStreamIndex (unsigned_to_int i)
    else
      ffmpeg_open_video_scan rest (i + 1) videoStreamIndex audioStreamIndex

/-- Outcomes of the external calls made by `ffmpeg_open_video`, in call order.
A pointer-valued call yields `none` for NULL. -/
structure OpenEnv where
  /-- The container `avformat_open_input` stores, `none` when it returns non-zero. -/
  avformat_open_input : Option AVFormatContext
  /-- Result of `al_malloc(sizeof(ffmpeg_data))`. -/
  al_malloc : Ptr
  /-- Return code of `avformat_find_stream_info`. -/
  avformat_find_stream_info : Int
  /-- The decoder registry: `avcodec_find_decoder(codec_id)`. -/
  avcodec_find_decoder : Nat → Ptr
  /-- Return code of `avcodec_open2` on the given codec context. -/
  avcodec_open2 : AVCodecContext → Int
  /-- Result of `sws_getContext`. -/
  sws_getContext : Ptr
  /-- Result of the first `av_frame_alloc` (the native frame). -/
  av_frame_alloc_native : Ptr
  /-- Result of the second `av_frame_alloc` (the RGB frame). -/
  av_frame_alloc_rgb : Ptr
  /-- Result of `av_malloc(numBytes)`. -/
  av_malloc : Ptr
  /-- Result of `al_create_bitmap(width, height)`. -/
  al_create_bitmap : Ptr

/-- Size in bytes of a packed RGB24 picture, `avpicture_get_size(AV_PIX_FMT_RGB24, w, h)`
of libavcodec (byte alignment 1). -/
def avpicture_get_size (width height : Int) : Int := width * 3 * height

/-- The statement pair `ffmpeg_close_video(video); return false;` of the failure paths
of `ffmpeg_open_video`. -/
def ffmpeg_open_video_fail (video : ALLEGRO_VIDEO) (log : List Event) :
    Option (Bool × ALLEGRO_VIDEO × List Event) :=
  match ffmpeg_close_video video log with
  | none => none
  | some (_, video1, log1) => some (false, video1, log1)

/-- Element `streams[idx]` for a C `int` index; `none` when out of bounds. -/
def stream_at (streams : List AVStream) (idx : Int) : Option AVStream :=
  if idx < 0 then none else streams.get? idx.toNat

/-- `ffmpeg_open_video`, from the bitmap allocation to the end (everything before has
succeeded; `fd` is the backend record built so far). -/
def ffmpeg_open_video_finish (env : OpenEnv) (video : ALLEGRO_VIDEO) (log : List Event)
    (fd : ffmpeg_data) (videoCodecCtx audioCodecCtx : AVCodecContext) :
    Option (Bool × ALLEGRO_VIDEO × List Event) :=
  match env.al_create_bitmap with
  | none => ffmpeg_open_video_fail { video with data := some fd } log
  | some frameBitmap =>
    let log1 := log ++ [Event.acquire Res.frameBitmap [videoCodecCtx.width, videoCodecCtx.height]]
    let fd1 : ffmpeg_data :=
      { fd with ad := { frameBitmap := some frameBitmap, endOfStream := false } }
    some (true,
      { video with
        data := some fd1
        position := 0
        fps := (videoCodecCtx.framerate_num : Rat)
                / ((videoCodecCtx.framerate_den : Rat) + 1 / 100000)
        scaled_width := (videoCodecCtx.width : Rat)
        scaled_height := (videoCodecCtx.height : Rat)
        video_position := 0
        es_inited := false
        playing := false
        audio_rate := (audioCodecCtx.sample_rate : Rat)
        audio_position := 0 },
      log1)

/-- `ffmpeg_open_video`, from the scaler setup to the buffer allocation. -/
def ffmpeg_open_video_buffers (env : OpenEnv) (video : ALLEGRO_VIDEO) (log : List Event)
    (fd : ffmpeg_data) (videoCodecCtx audioCodecCtx : AVCodecContext) :
    Option (Bool × ALLEGRO_VIDEO × List Event) :=
  let numBytes := avpicture_get_size videoCodecCtx.width videoCodecCtx.height
  match env.sws_getContext with
  | none => ffmpeg_open_video_fail { video with data := some fd } log
  | some swScaleCtx =>
    let log1 := log ++ [Event.acquire Res.swScaleCtx
      [videoCodecCtx.width, videoCodecCtx.height, videoCodecCtx.width, videoCodecCtx.height]]
    let fd1 : ffmpeg_data := { fd with swScaleCtx := some swScaleCtx }
    match env.av_frame_alloc_native with
    | none => ffmpeg_open_video_fail { video with data := some fd1 } log1
    | some _ =>
      let log2 := log1 ++ [Event.acquire Res.frameNative []]
      let fd2 : ffmpeg_data := { fd1 with frameNative := some { data0 := none, linesize0 := 0 } }
      match env.av_frame_alloc_rgb with
      | none => ffmpeg_open_video_fail { video with data := some fd2 } log2
      | some _ =>
        let log3 := log2 ++ [Event.acquire Res.frameRGB []]
        let fd3 : ffmpeg_data := { fd2 with frameRGB := some { data0 := none, linesize0 := 0 } }
        match env.av_malloc with
        | none => ffmpeg_open_video_fail { video with data := some fd3 } log3
        | some bufferRGB =>
          let log4 := log3 ++ [Event.acquire Res.bufferRGB [numBytes]]
          -- avpicture_fill: the RGB frame points at the buffer, rows are packed
          let fd4 : ffmpeg_data :=
            { fd3 with
              bufferRGB := some bufferRGB
              frameRGB := some { data0 := some bufferRGB, linesize0 := videoCodecCtx.width * 3 } }
          ffmpeg_open_video_finish env video log4 fd4 videoCodecCtx audioCodecCtx

/-- `ffmpeg_open_video`, the decoder lookup and initialisation for the two selected
streams. -/
def ffmpeg_open_video_codecs (env : OpenEnv) (video : ALLEGRO_VIDEO) (log : List Event)
    (fd : ffmpeg_data) (videoCodecCtx audioCodecCtx : AVCodecContext) :
    Option (Bool × ALLEGRO_VIDEO × List Event) :=
  let fd1 : ffmpeg_data :=
    { fd with videoCodecCtx := some videoCodecCtx, audioCodecCtx := some audioCodecCtx }
  let videoCodec := env.avcodec_find_decoder videoCodecCtx.codec_id
  let audioCodec := env.avcodec_find_decoder audioCodecCtx.codec_id
  match videoCodec with
  | none => ffmpeg_open_video_fail { video with data := some fd1 } log
  | some vc =>
    if env.avcodec_open2 videoCodecCtx < 0 then
      ffmpeg_open_video_fail { video with data := some fd1 } log
    else
      let log1 := log ++ [Event.acquire Res.videoCodecCtx []]
      let fd2 : ffmpeg_data := { fd1 with videoCodec := some vc }
      match audioCodec with
      | none => ffmpeg_open_video_fail { video with data := some fd2 } log1
      | some ac =>
        if env.avcodec_open2 audioCodecCtx < 0 then
          ffmpeg_open_video_fail { video with data := some fd2 } log1
        else
          let log2 := log1 ++ [Event.acquire Res.audioCodecCtx []]
          let fd3 : ffmpeg_data := { fd2 with audioCodec := some ac }
          ffmpeg_open_video_buffers env video log2 fd3 videoCodecCtx audioCodecCtx

/-- `ffmpeg_open_video`. -/
def ffmpeg_open_video (env : OpenEnv) (video : ALLEGRO_VIDEO) (log : List Event) :
    Option (Bool × ALLEGRO_VIDEO × List Event) :=
  match video.filename with
  | none => none
  | some filename =>
    if filename = "" then none
    else
      match env.avformat_open_input with
      | none => some (false, video, log)
      | some pFormatCtx =>
        let log1 := log ++ [Event.acquire Res.formatCtx []]
        match env.al_malloc with
        | none => some (false, video, log1)
        | some _ =>
          let log2 := log1 ++ [Event.acquire Res.sessionData []]
          let fd : ffmpeg_data := { ffmpeg_data.zero with formatCtx := some pFormatCtx }
          let video1 : ALLEGRO_VIDEO := { video with data := some fd }
          if env.avformat_find_stream_info < 0 ∨ pFormatCtx.streams.length = 0 then
            ffmpeg_open_video_fail video1 log2
          else
            let sel := ffmpeg_open_video_scan pFormatCtx.streams 0 (-1) (-1)
            let videoStreamIndex := sel.1
            let audioStreamIndex := sel.2
            if videoStreamIndex = -1 then ffmpeg_open_video_fail video1 log2
            else if audioStreamIndex = -1 then ffmpeg_open_video_fail video1 log2
            else
              match stream_at pFormatCtx.streams videoStreamIndex,
                    stream_at pFormatCtx.streams audioStreamIndex with
              | some vstream, some astream =>
                ffmpeg_open_video_codecs env video1 log2 fd vstream.codec astream.codec
              | _, _ => none

/-- `ffmpeg_start_video`: note the C return value is `false`. -/
def ffmpeg_start_video (video : ALLEGRO_VIDEO) : Option (Bool × ALLEGRO_VIDEO) :=
  match video.data with
  | none => none
  | some _ => some (false, { video with playing := true })

/-- `ffmpeg_seek_video`: unsupported; `seek_to` is ignored. -/
def ffmpeg_seek_video (video : ALLEGRO_VIDEO) (_seek_to : Rat) : Option (Bool × ALLEGRO_VIDEO) :=
  match video.data with
  | none => none
  | some _ => some (false, video)

/-- Modelled from the spec: the locked region `ALLEGRO_LOCKED_REGION` handed out by
`al_lock_bitmap` (declared in the Allegro headers, not part of the sources at hand),
with the two fields `ffmpeg.c` reads: the pixel memory at `data` and the row stride
`pitch` in bytes. -/
structure ALLEGRO_LOCKED_REGION where
  data : Memory
  pitch : Int

/-- C `memcpy(dst + dstOff, src + srcOff, n)`: the `n` bytes from `srcOff` replace the
`n` bytes from `dstOff`; every other byte of `dst` is kept. -/
def memcpy (dst : Memory) (dstOff : Int) (src : Memory) (srcOff : Int) (n : Nat) : Memory :=
  fun a => if dstOff ≤ a ∧ a < dstOff + n then src (srcOff + (a - dstOff)) else dst a

/-- Product of two C `int`s; `none` on signed overflow. -/
def int_mul (a b : Int) : Option Int :=
  if -INT_MAX - 1 ≤ a * b ∧ a * b ≤ INT_MAX then some (a * b) else none

/-- The row loop of `ffmpeg_update_video_frame_to_bitmap`: `rows` iterations remain,
`outOff` and `srcOff` are the offsets of `out` and `srcLine` from their bases.  A
negative `sizeBytes` passed to `memcpy` is outside its contract. -/
def ffmpeg_update_video_frame_to_bitmap_rows (src : Memory) (sizeBytes linePitch pitch : Int) :
    Nat → Memory → Int → Int → Option Memory
  | 0, out, _, _ => some out
  | rows + 1, out, outOff, srcOff =>
    if sizeBytes < 0 then none
    else
      ffmpeg_update_video_frame_to_bitmap_rows src sizeBytes linePitch pitch rows
        (memcpy out outOff src srcOff sizeBytes.toNat) (outOff + pitch) (srcOff + linePitch)

/-- `ffmpeg_update_video_frame_to_bitmap`.  `src` is the memory at `frameRGB->data[0]`
and `lock` the answer of `al_lock_bitmap`.  The result is the C return value and, when
the surface was locked, its pixel memory after the copy. -/
def ffmpeg_update_video_frame_to_bitmap (frameRGB : Option AVFrame) (src : Memory)
    (bitmap : Ptr) (lock : Option ALLEGRO_LOCKED_REGION) (width height : Int) :
    Option (Bool × Option Memory) :=
  match frameRGB, bitmap with
  | some frame, some _ =>
    match lock with
    | none => some (false, none)
    | some a_lock =>
      match int_mul width 3 with
      | none => none
      | some sizeBytes =>
        if ¬ sizeBytes ≤ a_lock.pitch then none
        else if sizeBytes = a_lock.pitch then
          match int_mul sizeBytes height with
          | none => none
          | some totalBytes =>
            if totalBytes < 0 then none
            else some (true, some (memcpy a_lock.data 0 src 0 totalBytes.toNat))
        else
          match ffmpeg_update_video_frame_to_bitmap_rows src sizeBytes frame.linesize0
              a_lock.pitch height.toNat a_lock.data 0 0 with
          | none => none
          | some out => some (true, some out)
  | _, _ => none

/-- Outcomes of the external calls of one `ffmpeg_update_video` beyond the packet read:
the bytes `sws_scale` leaves at `frameRGB->data[0]` and the answer of `al_lock_bitmap`. -/
structure UpdateEnv where
  sws_scale : Memory
  al_lock_bitmap : Option ALLEGRO_LOCKED_REGION

/-- `ffmpeg_update_video`.  The third component of the result is the pixel memory
written to the frame bitmap by this call, if any. -/
def ffmpeg_update_video (env : UpdateEnv) (video : ALLEGRO_VIDEO) :
    Option (Bool × ALLEGRO_VIDEO × Option Memory) :=
  match video.data with
  | none => none
  | some fd =>
    match fd.formatCtx with
    | none => none
    | some ctx =>
      let rd := av_read_frame ctx
      let frameRead := rd.1
      let fd1 : ffmpeg_data := { fd with formatCtx := some rd.2.2 }
      if frameRead < 0 then
        let fd2 : ffmpeg_data := { fd1 with ad := { fd1.ad with endOfStream := true } }
        match ffmpeg_set_video_playing { video with data := some fd2 } with
        | none => none
        | some (_, video1) => some (false, video1, none)
      else
        match rd.2.1, fd1.videoCodecCtx, fd1.frameNative with
        | some packet, some videoCodecCtx, some _ =>
          let frameFinished := packet.got_picture
          if ¬ frameFinished then some (false, { video with data := some fd1 }, none)
          else
            match fd1.swScaleCtx with
            | none => none
            | some _ =>
              match ffmpeg_update_video_frame_to_bitmap fd1.frameRGB env.sws_scale
                  fd1.ad.frameBitmap env.al_lock_bitmap videoCodecCtx.width
                  videoCodecCtx.height with
              | none => none
              | some (true, mem) =>
                some (true, { video with data := some fd1, current_frame := fd1.ad.frameBitmap },
                  mem)
              | some (false, mem) =>
                some (false, { video with data := some fd1, current_frame := none }, mem)
        | _, _, _ => none

/-- A call made by the owner of the session between Open and Close. -/
inductive Op
  | start
  | update (env : UpdateEnv)

/-- One call through the interface: its return value and the session afterwards. -/
def run_op (op : Op) (video : ALLEGRO_VIDEO) : Option (Bool × ALLEGRO_VIDEO) :=
  match op with
  | Op.start => ffmpeg_start_video video
  | Op.update env =>
    match ffmpeg_update_video env video with
    | none => none
    | some (r, video1, _) => some (r, video1)

/-- A sequence of calls, oldest first: the return values in order and the final session. -/
def run_ops : List Op → ALLEGRO_VIDEO → Option (List Bool × ALLEGRO_VIDEO)
  | [], video => some ([], video)
  | op :: ops, video =>
    match run_op op video with
    | none => none
    | some (r, video1) =>
      match run_ops ops video1 with
      | none => none
      | some (rs, video2) => some (r :: rs, video2)

/-- Specification of the selector: `idx` is the position of the first stream of kind
`k` in `streams`, or `-1` when there is none. -/
def FirstOfKind (k : AVMediaType) (streams : List AVStream) (idx : Int) : Prop :=
  (idx = -1 ∧ ∀ s ∈ streams, s.codec.codec_type ≠ k) ∨
  (∃ (n : Nat) (s : AVStream), idx = (n : Int) ∧ streams.get? n = some s ∧
    s.codec.codec_type = k ∧ ∀ (j : Nat) (t : AVStream), j < n → streams.get? j = some t → t.codec.codec_type ≠ k)

/-- A stream descriptor of the given kind (all other fields fixed), for examples. -/
def demo_stream (k : AVMediaType) (width height : Int) : AVStream :=
  { codec :=
    { codec_type := k, codec_id := 1, width := width, height := height, pix_fmt := 0,
      framerate_num := 25, framerate_den := 1, sample_rate := 44100 } }

/-- A stream list with duplicates of both kinds: audio, subtitle, video, video, audio. -/
def demo_streams : List AVStream :=
  [demo_stream AVMediaType.audio 0 0, demo_stream AVMediaType.subtitle 0 0,
   demo_stream AVMediaType.video 4 2, demo_stream AVMediaType.video 8 8,
   demo_stream AVMediaType.audio 0 0]

/-- Whether the backend record holds resource `r`, as `ffmpeg_close_video` tests it. -/
def ffmpeg_data.holds (fd : ffmpeg_data) : Res → Bool
  | Res.formatCtx => fd.formatCtx.isSome
  | Res.sessionData => true
  | Res.videoCodecCtx => fd.videoCodec.isSome
  | Res.audioCodecCtx => fd.audioCodec.isSome
  | Res.swScaleCtx => fd.swScaleCtx.isSome
  | Res.frameNative => fd.frameNative.isSome
  | Res.frameRGB => fd.frameRGB.isSome
  | Res.bufferRGB => fd.bufferRGB.isSome
  | Res.frameBitmap => fd.ad.frameBitmap.isSome

/-- The session record that a successful `ffmpeg_open_video` returns. -/
def opened_video (video : ALLEGRO_VIDEO) (fd : ffmpeg_data) (frameBitmap : Handle)
    (videoCodecCtx audioCodecCtx : AVCodecContext) : ALLEGRO_VIDEO :=
  { video with
    data := some { fd with ad := { frameBitmap := some frameBitmap, endOfStream := false } }
    position := 0
    fps := (videoCodecCtx.framerate_num : Rat)
            / ((videoCodecCtx.framerate_den : Rat) + 1 / 100000)
    scaled_width := (videoCodecCtx.width : Rat)
    scaled_height := (videoCodecCtx.height : Rat)
    video_position := 0
    es_inited := false
    playing := false
    audio_rate := (audioCodecCtx.sample_rate : Rat)
    audio_position := 0 }

/-- The backend record at the end of a successful `ffmpeg_open_video`, before the
frame bitmap is stored. -/
def opened_data (ctx : AVFormatContext) (vc ac : AVCodecContext)
    (vcodec acodec sws buf : Handle) : ffmpeg_data :=
  { ad := { frameBitmap := none, endOfStream := false }
    formatCtx := some ctx
    videoCodecCtx := some vc
    audioCodecCtx := some ac
    videoCodec := some vcodec
    audioCodec := some acodec
    frameNative := some { data0 := none, linesize0 := 0 }
    frameRGB := some { data0 := some buf, linesize0 := vc.width * 3 }
    swScaleCtx := some sws
    bufferRGB := some buf }

/-- The ledger entries of a successful `ffmpeg_open_video`, oldest first. -/
def opened_ledger (vc : AVCodecContext) : List Event :=
  [Event.acquire Res.formatCtx [], Event.acquire Res.sessionData [],
   Event.acquire Res.videoCodecCtx [], Event.acquire Res.audioCodecCtx [],
   Event.acquire Res.swScaleCtx [vc.width, vc.height, vc.width, vc.height],
   Event.acquire Res.frameNative [], Event.acquire Res.frameRGB [],
   Event.acquire Res.bufferRGB [avpicture_get_size vc.width vc.height],
   Event.acquire Res.frameBitmap [vc.width, vc.height]]

/-- A fresh session record, as the caller allocates it (all fields zero) with the
path of the file to open. -/
def demo_fresh : ALLEGRO_VIDEO :=
  { current_frame := none, video_position := 0, fps := 0, scaled_width := 0,
    scaled_height := 0, audio_position := 0, audio_rate := 0, es_inited := false,
    filename := some "movie.ogv", playing := false, position := 0, data := none }

/-- A container with the streams of `demo_streams` and the given reads to come. -/
def demo_container (pending : List ReadResult) : AVFormatContext :=
  { streams := demo_streams, pending := pending }

/-- Outcomes under which every step of `ffmpeg_open_video` succeeds. -/
def demo_env (pending : List ReadResult) : OpenEnv :=
  { avformat_open_input := some (demo_container pending)
    al_malloc := some 100
    avformat_find_stream_info := 0
    avcodec_find_decoder := fun _ => some 200
    avcodec_open2 := fun _ => 0
    sws_getContext := some 300
    av_frame_alloc_native := some 400
    av_frame_alloc_rgb := some 500
    av_malloc := some 600
    al_create_bitmap := some 700 }

/-- The session that `ffmpeg_open_video` builds from `demo_env` on `demo_fresh`. -/
def demo_opened (pending : List ReadResult) : ALLEGRO_VIDEO :=
  opened_video demo_fresh
    (opened_data (demo_container pending) (demo_stream AVMediaType.video 4 2).codec
      (demo_stream AVMediaType.audio 0 0).codec 200 200 300 600) 700
    (demo_stream AVMediaType.video 4 2).codec (demo_stream AVMediaType.audio 0 0).codec

/-- Outcomes of a container that has a video stream but no audio stream; every
external call would succeed. -/
def demo_env_video_only : OpenEnv :=
  { demo_env [] with
    avformat_open_input :=
      some { streams := [demo_stream AVMediaType.video 4 2], pending := [] } }

/-- Outcomes in which the container opens and the allocation of the backend record
fails (`al_malloc` returns NULL). -/
def demo_env_no_memory : OpenEnv :=
  { demo_env [] with al_malloc := none }

/-- Outcomes of the external calls of an Update on the 4 x 2 demo video: the
converted picture holds byte `a mod 256` at offset `a`, and the surface locks with a
packed stride of 12 bytes. -/
def demo_update_env : UpdateEnv :=
  { sws_scale := fun a => (a % 256).toNat
    al_lock_bitmap := some { data := fun _ => 0, pitch := 12 } }

/-- A read that delivers a packet completing a picture. -/
def demo_frame_read : ReadResult :=
  { ret := 0, packet := { stream_index := 2, got_picture := true } }

/-- A read that delivers a packet the decoder only buffers (no picture yet). -/
def demo_buffered_read : ReadResult :=
  { ret := 0, packet := { stream_index := 0, got_picture := false } }

/-- The demo session once an Update has produced a frame, with the given reads still
to come. -/
def demo_shown (pending : List ReadResult) : ALLEGRO_VIDEO :=
  { demo_opened pending with current_frame := some 700 }

/-- The demo session after Open, one Update that produced a frame, and Close. -/
def demo_closed_after_frame : ALLEGRO_VIDEO :=
  { demo_opened [] with current_frame := some 700, data := none }

/-- The demo session after Open and Close. -/
def demo_closed : ALLEGRO_VIDEO :=
  { demo_opened [] with data := none }

/-- A partially opened session: the container and the backend record only, as when a
later step of Open is about to fail. -/
def demo_half_open : ALLEGRO_VIDEO :=
  { demo_fresh with
    data := some { ffmpeg_data.zero with formatCtx := some (demo_container []) } }

/-- Byte at offset `a` of the surface memory returned by the surface writer, if any. -/
def surface_byte (res : Option (Bool × Option Memory)) (a : Int) : Option Byte :=
  match res with
  | some (_, some m) => some (m a)
  | _ => none

/-- A source picture whose byte at offset `a` is `a`. -/
def demo_src : Memory := fun a => a.toNat

/-- An RGB frame of width 1 whose rows are 4 bytes apart (one padding byte per row). -/
def demo_padded_frame : AVFrame := { data0 := some 600, linesize0 := 4 }

/-- A packed RGB frame of width 4: rows 12 bytes apart, as `avpicture_fill` lays it out. -/
def demo_packed_frame : AVFrame := { data0 := some 600, linesize0 := 12 }

/-- Outcomes of the reads still to come on the session's container (empty when the
container is exhausted or the session is closed). -/
def pending_reads (video : ALLEGRO_VIDEO) : List ReadResult :=
  match video.data with
  | some fd =>
    match fd.formatCtx with
    | some ctx => ctx.pending
    | none => []
  | none => []

/-- The flag `endOfStream` of the session's backend record (false when closed). -/
def end_of_stream (video : ALLEGRO_VIDEO) : Bool :=
  match video.data with
  | some fd => fd.ad.endOfStream
  | none => false

/-- The pointer `frameBitmap` of the session's backend record. -/
def frame_bitmap (video : ALLEGRO_VIDEO) : Ptr :=
  match video.data with
  | some fd => fd.ad.frameBitmap
  | none => none

/-- Whether the next `av_read_frame` on the session's container fails: a negative
return code, or end of file on an exhausted container. -/
def read_fails (video : ALLEGRO_VIDEO) : Bool :=
  match pending_reads video with
  | [] => true
  | r :: _ => decide (r.ret < 0)

/-- The four ways one `ffmpeg_update_video` can go. -/
inductive UpdateCase
  | read_failed
  | not_ready
  | lock_failed
  | frame
  deriving DecidableEq, Repr

/-- Which way an Update goes, read off the outcomes of its external calls: the packet
read, the decoder's picture flag, the surface lock. -/
def update_case (env : UpdateEnv) (video : ALLEGRO_VIDEO) : UpdateCase :=
  match pending_reads video with
  | [] => UpdateCase.read_failed
  | r :: _ =>
    if r.ret < 0 then UpdateCase.read_failed
    else if r.packet.got_picture then
      (if env.al_lock_bitmap.isSome then UpdateCase.frame else UpdateCase.lock_failed)
    else UpdateCase.not_ready

/-- A backend record as a successful Open leaves it and Update keeps it: every
pointer that Update follows is non-NULL and the picture dimensions are non-negative
with `3 * width * height` within a C `int`. -/
def ffmpeg_data.ready (fd : ffmpeg_data) : Bool :=
  fd.formatCtx.isSome && fd.frameNative.isSome && fd.frameRGB.isSome &&
  fd.swScaleCtx.isSome && fd.ad.frameBitmap.isSome &&
  (match fd.videoCodecCtx with
    | none => false
    | some vc =>
      decide (0 ≤ vc.width) && decide (0 ≤ vc.height) && decide (vc.width * 3 ≤ INT_MAX) &&
      decide (vc.width * 3 * vc.height ≤ INT_MAX))

/-- A session that holds a ready backend record. -/
def session_ready (video : ALLEGRO_VIDEO) : Bool :=
  match video.data with
  | none => false
  | some fd => fd.ready

/-- The session after an Update, by the way the Update went: the container has
advanced by one read; a failed read raises `endOfStream` and stops playback; a
failed lock clears `current_frame`; a written frame makes it the frame bitmap. -/
def updated_video (env : UpdateEnv) (video : ALLEGRO_VIDEO) (fd : ffmpeg_data)
    (ctx : AVFormatContext) : ALLEGRO_VIDEO :=
  { video with
    data := some
      { fd with
        formatCtx := some (av_read_frame ctx).2.2
        ad := { fd.ad with
                endOfStream := fd.ad.endOfStream || decide ((av_read_frame ctx).1 < 0) } }
    playing :=
      (match update_case env video with
        | UpdateCase.read_failed => false
        | _ => video.playing)
    current_frame :=
      (match update_case env video with
        | UpdateCase.frame => fd.ad.frameBitmap
        | UpdateCase.lock_failed => none
        | _ => video.current_frame) }

/-- The locked region, when the lock succeeds, has a row stride of at least three
bytes per pixel of the session's picture width (the condition the surface writer
asserts). -/
def lock_fits (env : UpdateEnv) (video : ALLEGRO_VIDEO) : Bool :=
  match env.al_lock_bitmap, video.data with
  | some lock, some fd =>
    (match fd.videoCodecCtx with
      | some vc => decide (vc.width * 3 ≤ lock.pitch)
      | none => false)
  | _, _ => true

/-- The backend record after an Update: the container has advanced by one read and
`endOfStream` is raised when that read failed; nothing else changes. -/
def updated_data (fd : ffmpeg_data) (ctx : AVFormatContext) : ffmpeg_data :=
  { fd with
    formatCtx := some (av_read_frame ctx).2.2
    ad := { fd.ad with
            endOfStream := fd.ad.endOfStream || decide ((av_read_frame ctx).1 < 0) } }

/-- The session holds a backend record with an opened container. -/
def has_container (video : ALLEGRO_VIDEO) : Bool :=
  match video.data with
  | some fd => fd.formatCtx.isSome
  | none => false

/-- The demo session after Start, a buffered packet, Start and a shown frame: playing,
with the frame current and the container exhausted. -/
def demo_playing : ALLEGRO_VIDEO :=
  { demo_shown [] with playing := true }

/-! ## Theorems -/

theorem unsigned_to_int_small (i : Nat) (h : i < 2 ^ 31) : unsigned_to_int i = (i : Int) := by
  unfold unsigned_to_int
  have h1 : i % 2 ^ 32 = i := Nat.mod_eq_of_lt (by omega)
  rw [h1, if_pos h]

theorem scan_video_kept (l : List AVStream) (i : Nat) (v a : Int) (hv : v ≠ -1) :
    (ffmpeg_open_video_scan l i v a).1 = v := by
  induction l generalizing i a with
  | nil => simp [ffmpeg_open_video_scan]
  | cons s rest ih =>
    simp only [ffmpeg_open_video_scan]
    split_ifs <;> exact ih _ _

theorem scan_audio_kept (l : List AVStream) (i : Nat) (v a : Int) (ha : a ≠ -1) :
    (ffmpeg_open_video_scan l i v a).2 = a := by
  induction l generalizing i v with
  | nil => simp [ffmpeg_open_video_scan]
  | cons s rest ih =>
    simp only [ffmpeg_open_video_scan]
    split_ifs <;> exact ih _ _

theorem scan_append (l1 l2 : List AVStream) (i : Nat) (v a : Int) :
    ffmpeg_open_video_scan (l1 ++ l2) i v a =
      ffmpeg_open_video_scan l2 (i + l1.length) (ffmpeg_open_video_scan l1 i v a).1
        (ffmpeg_open_video_scan l1 i v a).2 := by
  induction l1 generalizing i v a with
  | nil => simp [ffmpeg_open_video_scan]
  | cons s rest ih =>
    simp only [List.cons_append, ffmpeg_open_video_scan, List.length_cons]
    have e : i + (rest.length + 1) = i + 1 + rest.length := by omega
    split_ifs <;> (rw [e]; exact ih _ _ _)

theorem scan_video_first (l : List AVStream) (i : Nat) (a : Int) (h : i + l.length ≤ 2 ^ 31) :
    ((ffmpeg_open_video_scan l i (-1) a).1 = -1 ∧
        ∀ s ∈ l, s.codec.codec_type ≠ AVMediaType.video) ∨
    (∃ n s, (ffmpeg_open_video_scan l i (-1) a).1 = ((i + n : Nat) : Int) ∧
        l.get? n = some s ∧ s.codec.codec_type = AVMediaType.video ∧
        ∀ j t, j < n → l.get? j = some t → t.codec.codec_type ≠ AVMediaType.video) := by
  induction l generalizing i a with
  | nil => left; simp [ffmpeg_open_video_scan]
  | cons s rest ih =>
    simp only [List.length_cons] at h
    by_cases hs : s.codec.codec_type = AVMediaType.video
    · right
      refine ⟨0, s, ?_, by simp, hs, by intro j t hj; omega⟩
      simp only [ffmpeg_open_video_scan, hs, if_true]
      rw [if_neg (by simp), scan_video_kept, unsigned_to_int_small i (by omega)]
      · simp
      · rw [unsigned_to_int_small i (by omega)]; omega
    · have key : ∃ a1, ffmpeg_open_video_scan (s :: rest) i (-1) a =
          ffmpeg_open_video_scan rest (i + 1) (-1) a1 := by
        simp only [ffmpeg_open_video_scan, hs, if_false]
        split_ifs <;> exact ⟨_, rfl⟩
      obtain ⟨a1, ha1⟩ := key
      rw [ha1]
      rcases ih (i + 1) a1 (by omega) with ⟨h1, h2⟩ | ⟨n, t, h1, h2, h3, h4⟩
      · left
        refine ⟨h1, ?_⟩
        intro x hx
        rcases List.mem_cons.mp hx with rfl | hx
        · exact hs
        · exact h2 x hx
      · right
        refine ⟨n + 1, t, ?_, by simpa using h2, h3, ?_⟩
        · rw [h1]; congr 1; omega
        · intro j u hj hu
          cases j with
          | zero => simp at hu; subst hu; exact hs
          | succ j => exact h4 j u (by omega) (by simpa using hu)

theorem scan_audio_first (l : List AVStream) (i : Nat) (v : Int) (h : i + l.length ≤ 2 ^ 31) :
    ((ffmpeg_open_video_scan l i v (-1)).2 = -1 ∧
        ∀ s ∈ l, s.codec.codec_type ≠ AVMediaType.audio) ∨
    (∃ n s, (ffmpeg_open_video_scan l i v (-1)).2 = ((i + n : Nat) : Int) ∧
        l.get? n = some s ∧ s.codec.codec_type = AVMediaType.audio ∧
        ∀ j t, j < n → l.get? j = some t → t.codec.codec_type ≠ AVMediaType.audio) := by
  induction l generalizing i v with
  | nil => left; simp [ffmpeg_open_video_scan]
  | cons s rest ih =>
    simp only [List.length_cons] at h
    by_cases hs : s.codec.codec_type = AVMediaType.audio
    · right
      refine ⟨0, s, ?_, by simp, hs, by intro j t hj; omega⟩
      have hnv : s.codec.codec_type ≠ AVMediaType.video := by rw [hs]; decide
      simp only [ffmpeg_open_video_scan, hs, if_true]
      rw [if_neg (by decide), if_neg (by simp), scan_audio_kept, unsigned_to_int_small i (by omega)]
      · simp
      · rw [unsigned_to_int_small i (by omega)]; omega
    · have key : ∃ v1, ffmpeg_open_video_scan (s :: rest) i v (-1) =
          ffmpeg_open_video_scan rest (i + 1) v1 (-1) := by
        simp only [ffmpeg_open_video_scan, hs, if_false]
        split_ifs <;> exact ⟨_, rfl⟩
      obtain ⟨v1, hv1⟩ := key
      rw [hv1]
      rcases ih (i + 1) v1 (by omega) with ⟨h1, h2⟩ | ⟨n, t, h1, h2, h3, h4⟩
      · left
        refine ⟨h1, ?_⟩
        intro x hx
        rcases List.mem_cons.mp hx with rfl | hx
        · exact hs
        · exact h2 x hx
      · right
        refine ⟨n + 1, t, ?_, by simpa using h2, h3, ?_⟩
        · rw [h1]; congr 1; omega
        · intro j u hj hu
          cases j with
          | zero => simp at hu; subst hu; exact hs
          | succ j => exact h4 j u (by omega) (by simpa using hu)

theorem scan_video_absent (l : List AVStream) (i : Nat) (v a : Int)
    (h : ∀ s ∈ l, s.codec.codec_type ≠ AVMediaType.video) :
    (ffmpeg_open_video_scan l i v a).1 = v := by
  induction l generalizing i a with
  | nil => simp [ffmpeg_open_video_scan]
  | cons s rest ih =>
    have hs : s.codec.codec_type ≠ AVMediaType.video := h s (List.mem_cons_self _ _)
    have hr : ∀ t ∈ rest, t.codec.codec_type ≠ AVMediaType.video :=
      fun t ht => h t (List.mem_cons_of_mem _ ht)
    simp only [ffmpeg_open_video_scan, hs, if_false]
    split_ifs <;> exact ih _ _ hr

theorem scan_audio_absent (l : List AVStream) (i : Nat) (v a : Int)
    (h : ∀ s ∈ l, s.codec.codec_type ≠ AVMediaType.audio) :
    (ffmpeg_open_video_scan l i v a).2 = a := by
  induction l generalizing i v with
  | nil => simp [ffmpeg_open_video_scan]
  | cons s rest ih =>
    have hs : s.codec.codec_type ≠ AVMediaType.audio := h s (List.mem_cons_self _ _)
    have hr : ∀ t ∈ rest, t.codec.codec_type ≠ AVMediaType.audio :=
      fun t ht => h t (List.mem_cons_of_mem _ ht)
    simp only [ffmpeg_open_video_scan, hs, if_false]
    split_ifs <;> exact ih _ _ hr

/-- C1. After the scan of `ffmpeg_open_video`, `videoStreamIndex` is the index of the
first stream of kind Video, or -1 when there is none, and `audioStreamIndex` is the
index of the first stream of kind Audio, or -1 when there is none (the stream count
fits a C `int`); once an index is found, no stream appended to the list changes it,
whatever its kind. -/
theorem C1_stream_selection (streams : List AVStream) (hlen : streams.length ≤ 2 ^ 31) :
    FirstOfKind AVMediaType.video streams (ffmpeg_open_video_scan streams 0 (-1) (-1)).1 ∧
    FirstOfKind AVMediaType.audio streams (ffmpeg_open_video_scan streams 0 (-1) (-1)).2 ∧
    ∀ more : List AVStream,
      ((ffmpeg_open_video_scan streams 0 (-1) (-1)).1 ≠ -1 →
        (ffmpeg_open_video_scan (streams ++ more) 0 (-1) (-1)).1 =
          (ffmpeg_open_video_scan streams 0 (-1) (-1)).1) ∧
      ((ffmpeg_open_video_scan streams 0 (-1) (-1)).2 ≠ -1 →
        (ffmpeg_open_video_scan (streams ++ more) 0 (-1) (-1)).2 =
          (ffmpeg_open_video_scan streams 0 (-1) (-1)).2) := by
  refine ⟨?_, ?_, ?_⟩
  · rcases scan_video_first streams 0 (-1) (by omega) with h | ⟨n, s, h1, h2, h3, h4⟩
    · exact Or.inl h
    · exact Or.inr ⟨n, s, by rw [h1]; simp, h2, h3, h4⟩
  · rcases scan_audio_first streams 0 (-1) (by omega) with h | ⟨n, s, h1, h2, h3, h4⟩
    · exact Or.inl h
    · exact Or.inr ⟨n, s, by rw [h1]; simp, h2, h3, h4⟩
  · intro more
    rw [scan_append]
    exact ⟨fun hv => scan_video_kept _ _ _ _ hv, fun ha => scan_audio_kept _ _ _ _ ha⟩

/-- C1 at the list audio, subtitle, video, video, audio: the video index is 2 and the
audio index is 0. -/
theorem C1_stream_selection_witness :
    demo_streams.length ≤ 2 ^ 31 ∧
    ffmpeg_open_video_scan demo_streams 0 (-1) (-1) = (2, 0) ∧
    FirstOfKind AVMediaType.video demo_streams 2 ∧
    FirstOfKind AVMediaType.audio demo_streams 0 :=
  ⟨by simp [demo_streams], by decide,
   (C1_stream_selection demo_streams (by simp [demo_streams])).1,
   (C1_stream_selection demo_streams (by simp [demo_streams])).2.1⟩

/-- C4. On every session that holds a backend record (the precondition asserted by
the function) and for every target position, `ffmpeg_seek_video` returns false and
hands back the session unchanged: position, playing, current_frame and the whole
backend record including endOfStream. -/
theorem C4_seek_unsupported (video : ALLEGRO_VIDEO) (seek_to : Rat)
    (hdata : video.data.isSome = true) :
    ffmpeg_seek_video video seek_to = some (false, video) := by
  unfold ffmpeg_seek_video
  cases h : video.data with
  | none => rw [h] at hdata; simp at hdata
  | some fd => rfl

theorem acquired_append (r : Res) (l1 l2 : List Event) :
    acquired r (l1 ++ l2) = acquired r l1 + acquired r l2 := by
  induction l1 with
  | nil => simp [acquired]
  | cons e es ih =>
    cases e with
    | acquire r1 d => simp [acquired, ih, Nat.add_assoc]
    | release r1 => simp [acquired, ih]

theorem released_append (r : Res) (l1 l2 : List Event) :
    released r (l1 ++ l2) = released r l1 + released r l2 := by
  induction l1 with
  | nil => simp [released]
  | cons e es ih =>
    cases e with
    | acquire r1 d => simp [released, ih]
    | release r1 => simp [released, ih, Nat.add_assoc]

theorem close_video_some (video : ALLEGRO_VIDEO) (log : List Event) (fd : ffmpeg_data)
    (h : video.data = some fd) :
    ffmpeg_close_video video log =
      some (true, { video with playing := false, data := none },
        log ++ ffmpeg_close_video_releases fd) := by
  unfold ffmpeg_close_video
  rw [h]
  simp [ffmpeg_set_video_playing, ffmpeg_close_video_releases]

theorem close_video_none (video : ALLEGRO_VIDEO) (log : List Event) (h : video.data = none) :
    ffmpeg_close_video video log = none := by
  unfold ffmpeg_close_video
  rw [h]

theorem released_guarded (c : Bool) (r r1 : Res) :
    released r (if c = true then [Event.release r1] else []) =
      if c = true ∧ r1 = r then 1 else 0 := by
  cases c <;> simp [released]

theorem acquired_guarded (c : Bool) (r r1 : Res) :
    acquired r (if c = true then [Event.release r1] else []) = 0 := by
  cases c <;> simp [acquired]

theorem released_close_releases (fd : ffmpeg_data) (r : Res) :
    released r (ffmpeg_close_video_releases fd) = if fd.holds r then 1 else 0 := by
  unfold ffmpeg_close_video_releases
  simp only [released_append, released_guarded]
  cases r <;> simp [ffmpeg_data.holds, released]

theorem acquired_close_releases (fd : ffmpeg_data) (r : Res) :
    acquired r (ffmpeg_close_video_releases fd) = 0 := by
  unfold ffmpeg_close_video_releases
  simp only [acquired_append, acquired_guarded]
  simp [acquired]

theorem open_video_fail_some (video : ALLEGRO_VIDEO) (log : List Event) (fd : ffmpeg_data)
    (h : video.data = some fd) :
    ffmpeg_open_video_fail video log =
      some (false, { video with playing := false, data := none },
        log ++ ffmpeg_close_video_releases fd) := by
  unfold ffmpeg_open_video_fail
  rw [close_video_some video log fd h]

theorem open_video_fail_ne_true (video v1 : ALLEGRO_VIDEO) (log log1 : List Event) :
    ffmpeg_open_video_fail video log ≠ some (true, v1, log1) := by
  unfold ffmpeg_open_video_fail
  split <;> simp

theorem open_video_finish_true (env : OpenEnv) (video v1 : ALLEGRO_VIDEO)
    (log log1 : List Event) (fd : ffmpeg_data) (vc ac : AVCodecContext)
    (h : ffmpeg_open_video_finish env video log fd vc ac = some (true, v1, log1)) :
    ∃ bmp, env.al_create_bitmap = some bmp ∧ v1 = opened_video video fd bmp vc ac ∧
      log1 = log ++ [Event.acquire Res.frameBitmap [vc.width, vc.height]] := by
  unfold ffmpeg_open_video_finish at h
  split at h
  · exact absurd h (open_video_fail_ne_true _ _ _ _)
  · rename_i bmp hb
    simp only [Option.some.injEq, Prod.mk.injEq, true_and] at h
    exact ⟨bmp, hb, h.1.symm, h.2.symm⟩

theorem open_video_buffers_true (env : OpenEnv) (video v1 : ALLEGRO_VIDEO)
    (log log1 : List Event) (fd : ffmpeg_data) (vc ac : AVCodecContext)
    (h : ffmpeg_open_video_buffers env video log fd vc ac = some (true, v1, log1)) :
    ∃ sws fn fr buf bmp, env.sws_getContext = some sws ∧
      env.av_frame_alloc_native = some fn ∧ env.av_frame_alloc_rgb = some fr ∧
      env.av_malloc = some buf ∧ env.al_create_bitmap = some bmp ∧
      v1 = opened_video video
        { fd with
          swScaleCtx := some sws
          frameNative := some { data0 := none, linesize0 := 0 }
          bufferRGB := some buf
          frameRGB := some { data0 := some buf, linesize0 := vc.width * 3 } } bmp vc ac ∧
      log1 = log ++
        [Event.acquire Res.swScaleCtx [vc.width, vc.height, vc.width, vc.height],
         Event.acquire Res.frameNative [], Event.acquire Res.frameRGB [],
         Event.acquire Res.bufferRGB [avpicture_get_size vc.width vc.height],
         Event.acquire Res.frameBitmap [vc.width, vc.height]] := by
  unfold ffmpeg_open_video_buffers at h
  simp only at h
  split at h
  · exact absurd h (open_video_fail_ne_true _ _ _ _)
  rename_i sws hsws
  split at h
  · exact absurd h (open_video_fail_ne_true _ _ _ _)
  rename_i fn hfn
  split at h
  · exact absurd h (open_video_fail_ne_true _ _ _ _)
  rename_i fr hfr
  split at h
  · exact absurd h (open_video_fail_ne_true _ _ _ _)
  rename_i buf hbuf
  obtain ⟨bmp, hbmp, hv, hl⟩ := open_video_finish_true _ _ _ _ _ _ _ _ h
  refine ⟨sws, fn, fr, buf, bmp, hsws, hfn, hfr, hbuf, hbmp, hv, ?_⟩
  rw [hl]
  simp [List.append_assoc]

theorem open_video_codecs_true (env : OpenEnv) (video v1 : ALLEGRO_VIDEO)
    (log log1 : List Event) (fd : ffmpeg_data) (vc ac : AVCodecContext)
    (h : ffmpeg_open_video_codecs env video log fd vc ac = some (true, v1, log1)) :
    ∃ vcodec acodec sws fn fr buf bmp,
      env.avcodec_find_decoder vc.codec_id = some vcodec ∧ 0 ≤ env.avcodec_open2 vc ∧
      env.avcodec_find_decoder ac.codec_id = some acodec ∧ 0 ≤ env.avcodec_open2 ac ∧
      env.sws_getContext = some sws ∧
      env.av_frame_alloc_native = some fn ∧ env.av_frame_alloc_rgb = some fr ∧
      env.av_malloc = some buf ∧ env.al_create_bitmap = some bmp ∧
      v1 = opened_video video
        { fd with
          videoCodecCtx := some vc
          audioCodecCtx := some ac
          videoCodec := some vcodec
          audioCodec := some acodec
          swScaleCtx := some sws
          frameNative := some { data0 := none, linesize0 := 0 }
          bufferRGB := some buf
          frameRGB := some { data0 := some buf, linesize0 := vc.width * 3 } } bmp vc ac ∧
      log1 = log ++
        [Event.acquire Res.videoCodecCtx [], Event.acquire Res.audioCodecCtx [],
         Event.acquire Res.swScaleCtx [vc.width, vc.height, vc.width, vc.height],
         Event.acquire Res.frameNative [], Event.acquire Res.frameRGB [],
         Event.acquire Res.bufferRGB [avpicture_get_size vc.width vc.height],
         Event.acquire Res.frameBitmap [vc.width, vc.height]] := by
  unfold ffmpeg_open_video_codecs at h
  simp only at h
  split at h
  · exact absurd h (open_video_fail_ne_true _ _ _ _)
  rename_i vcodec hvc
  split at h
  · exact absurd h (open_video_fail_ne_true _ _ _ _)
  rename_i hvo
  split at h
  · exact absurd h (open_video_fail_ne_true _ _ _ _)
  rename_i acodec hac
  split at h
  · exact absurd h (open_video_fail_ne_true _ _ _ _)
  rename_i hao
  obtain ⟨sws, fn, fr, buf, bmp, h1, h2, h3, h4, h5, hv, hl⟩ :=
    open_video_buffers_true _ _ _ _ _ _ _ _ h
  refine ⟨vcodec, acodec, sws, fn, fr, buf, bmp, hvc, not_lt.mp hvo, hac, not_lt.mp hao,
    h1, h2, h3, h4, h5, hv, ?_⟩
  rw [hl]
  simp [List.append_assoc]

theorem open_video_true (env : OpenEnv) (video v1 : ALLEGRO_VIDEO) (log log1 : List Event)
    (h : ffmpeg_open_video env video log = some (true, v1, log1)) :
    ∃ f ctx p vs aus vcodec acodec sws buf bmp,
      video.filename = some f ∧ f ≠ "" ∧
      env.avformat_open_input = some ctx ∧ env.al_malloc = some p ∧
      0 ≤ env.avformat_find_stream_info ∧
      (ffmpeg_open_video_scan ctx.streams 0 (-1) (-1)).1 ≠ -1 ∧
      (ffmpeg_open_video_scan ctx.streams 0 (-1) (-1)).2 ≠ -1 ∧
      stream_at ctx.streams (ffmpeg_open_video_scan ctx.streams 0 (-1) (-1)).1 = some vs ∧
      stream_at ctx.streams (ffmpeg_open_video_scan ctx.streams 0 (-1) (-1)).2 = some aus ∧
      v1 = opened_video video (opened_data ctx vs.codec aus.codec vcodec acodec sws buf) bmp
        vs.codec aus.codec ∧
      log1 = log ++ opened_ledger vs.codec := by
  unfold ffmpeg_open_video at h
  split at h
  · simp at h
  rename_i f hf
  split at h
  · simp at h
  rename_i hne
  split at h
  · simp at h
  rename_i ctx hctx
  simp only at h
  split at h
  · simp at h
  rename_i p hp
  split at h
  · exact absurd h (open_video_fail_ne_true _ _ _ _)
  rename_i hinfo
  split at h
  · exact absurd h (open_video_fail_ne_true _ _ _ _)
  rename_i hv
  split at h
  · exact absurd h (open_video_fail_ne_true _ _ _ _)
  rename_i ha
  split at h
  · rename_i vs aus hvs has
    obtain ⟨vcodec, acodec, sws, fn, fr, buf, bmp, -, -, -, -, -, -, -, -, -, hv1, hl⟩ :=
      open_video_codecs_true _ _ _ _ _ _ _ _ h
    refine ⟨f, ctx, p, vs, aus, vcodec, acodec, sws, buf, bmp, hf, hne, hctx, hp, ?_, hv, ha,
      hvs, has, ?_, ?_⟩
    · have := not_or.mp hinfo
      exact not_lt.mp this.1
    · rw [hv1]; rfl
    · rw [hl]; simp [opened_ledger, List.append_assoc]
  · simp at h

theorem demo_open (pending : List ReadResult) :
    ffmpeg_open_video (demo_env pending) demo_fresh [] =
      some (true, demo_opened pending,
        opened_ledger (demo_stream AVMediaType.video 4 2).codec) := by
  rfl

theorem stream_at_first (k : AVMediaType) (streams : List AVStream) (idx : Int) (vs : AVStream)
    (hfirst : FirstOfKind k streams idx) (hidx : idx ≠ -1) (hat : stream_at streams idx = some vs) :
    vs.codec.codec_type = k ∧ ∃ n : Nat, idx = (n : Int) ∧ streams.get? n = some vs ∧
      ∀ (j : Nat) (t : AVStream), j < n → streams.get? j = some t → t.codec.codec_type ≠ k := by
  rcases hfirst with ⟨h, -⟩ | ⟨n, s, h1, h2, h3, h4⟩
  · exact absurd h hidx
  · subst h1
    unfold stream_at at hat
    rw [if_neg (by omega), Int.toNat_ofNat, h2] at hat
    cases hat
    exact ⟨h3, n, rfl, h2, h4⟩

/-- C2. Once the container is opened and the backend record allocated (the scan is
reached), a stream list with no Video stream or with no Audio stream makes
`ffmpeg_open_video` return false whatever stream discovery and all later steps
answer; the teardown has run: the two resources held are released, nothing else was
acquired, and `video->data` is NULL. -/
theorem C2_missing_stream_fails (env : OpenEnv) (video : ALLEGRO_VIDEO) (log : List Event)
    (f : String) (ctx : AVFormatContext) (p : Handle)
    (hf : video.filename = some f) (hne : f ≠ "")
    (hctx : env.avformat_open_input = some ctx) (hp : env.al_malloc = some p)
    (hmiss : (∀ s ∈ ctx.streams, s.codec.codec_type ≠ AVMediaType.video) ∨
             (∀ s ∈ ctx.streams, s.codec.codec_type ≠ AVMediaType.audio)) :
    ffmpeg_open_video env video log =
      some (false, { video with playing := false, data := none },
        log ++ [Event.acquire Res.formatCtx [], Event.acquire Res.sessionData [],
                Event.release Res.formatCtx, Event.release Res.sessionData]) := by
  have hfail : ffmpeg_open_video_fail
      { video with data := some { ffmpeg_data.zero with formatCtx := some ctx } }
      (log ++ [Event.acquire Res.formatCtx []] ++ [Event.acquire Res.sessionData []]) =
      some (false, { video with playing := false, data := none },
        log ++ [Event.acquire Res.formatCtx [], Event.acquire Res.sessionData [],
                Event.release Res.formatCtx, Event.release Res.sessionData]) := by
    rw [open_video_fail_some _ _ _ rfl]
    simp [ffmpeg_close_video_releases, ffmpeg_data.zero]
  unfold ffmpeg_open_video
  simp only [hf, hne, hctx, hp, if_false] at hfail ⊢
  split_ifs with h1 h2 h3
  · exact hfail
  · exact hfail
  · exact hfail
  · exfalso
    rcases hmiss with hv | ha
    · exact h2 (scan_video_absent _ _ _ _ hv)
    · exact h3 (scan_audio_absent _ _ _ _ ha)

/-- C2 at a container with a single video stream and no audio stream. -/
theorem C2_missing_stream_fails_witness :
    ffmpeg_open_video demo_env_video_only demo_fresh [] =
      some (false, { demo_fresh with playing := false, data := none },
        [] ++ [Event.acquire Res.formatCtx [], Event.acquire Res.sessionData [],
                Event.release Res.formatCtx, Event.release Res.sessionData]) :=
  C2_missing_stream_fails demo_env_video_only demo_fresh [] "movie.ogv"
    { streams := [demo_stream AVMediaType.video 4 2], pending := [] } 100 rfl (by decide) rfl rfl
    (Or.inr (by decide))

/-- C3 at its failing input. When `al_malloc` returns NULL after the container was
opened, `ffmpeg_open_video` returns false with the container acquired once and
released never: the ledger holds the acquisition alone. -/
theorem C3_alloc_failure_leaks_container :
    ffmpeg_open_video demo_env_no_memory demo_fresh [] =
      some (false, demo_fresh, [Event.acquire Res.formatCtx []]) ∧
    acquired Res.formatCtx [Event.acquire Res.formatCtx []] = 1 ∧
    released Res.formatCtx [Event.acquire Res.formatCtx []] = 0 := by
  refine ⟨rfl, rfl, rfl⟩

/-- C9, as stated, fails. Open, one Update that shows a frame, Close, then Open again
on the same session record: the second Open returns true and `current_frame` still
holds the pointer of the frame shown before, because Open never writes that field. -/
theorem C9_open_keeps_current_frame :
    ffmpeg_open_video (demo_env [demo_frame_read]) demo_fresh [] =
      some (true, demo_opened [demo_frame_read],
        opened_ledger (demo_stream AVMediaType.video 4 2).codec) ∧
    (ffmpeg_update_video demo_update_env (demo_opened [demo_frame_read])).map
      (fun r => (r.1, r.2.1)) = some (true, demo_shown []) ∧
    (ffmpeg_close_video (demo_shown []) []).map (fun r => (r.1, r.2.1)) =
      some (true, demo_closed_after_frame) ∧
    (ffmpeg_open_video (demo_env []) demo_closed_after_frame []).map
      (fun r => (r.1, r.2.1.current_frame)) = some (true, some 700) := by
  exact ⟨rfl, rfl, rfl, rfl⟩

/-- C9, amended. Whenever `ffmpeg_open_video` returns true (on a container whose
stream count fits a C `int`), the selected stream `vs` is the first stream of kind
Video, and the session has position, video_position and audio_position 0, playing
false, endOfStream false, scaled_width and scaled_height equal to the width and height
of `vs`, the conversion buffer allocated with the RGB24 size of exactly those
dimensions and attached to the RGB frame with packed rows, and the frame bitmap
created with exactly those dimensions; `current_frame` is not written: it keeps the
value it had on entry, hence is NULL when Open runs on a record whose
`current_frame` is NULL. -/
theorem C9_open_post_state (env : OpenEnv) (video v1 : ALLEGRO_VIDEO) (log log1 : List Event)
    (h : ffmpeg_open_video env video log = some (true, v1, log1))
    (hlen : ∀ ctx, env.avformat_open_input = some ctx → ctx.streams.length ≤ 2 ^ 31) :
    ∃ (ctx : AVFormatContext) (vs : AVStream) (n : Nat) (fd : ffmpeg_data) (buf bmp : Handle),
      env.avformat_open_input = some ctx ∧ ctx.streams.get? n = some vs ∧
      vs.codec.codec_type = AVMediaType.video ∧
      (∀ (j : Nat) (t : AVStream), j < n → ctx.streams.get? j = some t →
        t.codec.codec_type ≠ AVMediaType.video) ∧
      v1.position = 0 ∧ v1.video_position = 0 ∧ v1.audio_position = 0 ∧
      v1.playing = false ∧ v1.data = some fd ∧ fd.ad.endOfStream = false ∧
      v1.current_frame = video.current_frame ∧
      (video.current_frame = none → v1.current_frame = none) ∧
      v1.scaled_width = (vs.codec.width : Rat) ∧ v1.scaled_height = (vs.codec.height : Rat) ∧
      fd.bufferRGB = some buf ∧
      fd.frameRGB = some { data0 := some buf, linesize0 := vs.codec.width * 3 } ∧
      fd.ad.frameBitmap = some bmp ∧
      acquired Res.bufferRGB log1 = acquired Res.bufferRGB log + 1 ∧
      acquired Res.frameBitmap log1 = acquired Res.frameBitmap log + 1 ∧
      Event.acquire Res.bufferRGB [vs.codec.width * 3 * vs.codec.height] ∈ opened_ledger vs.codec ∧
      Event.acquire Res.frameBitmap [vs.codec.width, vs.codec.height] ∈ opened_ledger vs.codec ∧
      log1 = log ++ opened_ledger vs.codec := by
  obtain ⟨f, ctx, p, vs, aus, vcodec, acodec, sws, buf, bmp, -, -, hctx, -, -, hv, -, hvs, -,
    hv1, hl⟩ := open_video_true env video v1 log log1 h
  have hfirst : FirstOfKind AVMediaType.video ctx.streams
      (ffmpeg_open_video_scan ctx.streams 0 (-1) (-1)).1 := by
    rcases scan_video_first ctx.streams 0 (-1) (by have := hlen ctx hctx; omega) with
      h0 | ⟨n, s, h1, h2, h3, h4⟩
    · exact Or.inl h0
    · exact Or.inr ⟨n, s, by rw [h1]; simp, h2, h3, h4⟩
  obtain ⟨hkind, n, -, hget, hbefore⟩ := stream_at_first _ _ _ _ hfirst hv hvs
  subst hv1 hl
  refine ⟨ctx, vs, n, _, buf, bmp, hctx, hget, hkind, hbefore, rfl, rfl, rfl, rfl, rfl, rfl,
    rfl, fun h0 => h0, rfl, rfl, rfl, rfl, rfl, ?_, ?_, ?_, ?_, rfl⟩
  · simp [acquired_append, opened_ledger, acquired]
  · simp [acquired_append, opened_ledger, acquired]
  · simp [opened_ledger, avpicture_get_size]
  · simp [opened_ledger]

/-- C9 (amended) at the demo container, opened on a fresh record. -/
theorem C9_open_post_state_witness :
    ffmpeg_open_video (demo_env []) demo_fresh [] =
      some (true, demo_opened [], opened_ledger (demo_stream AVMediaType.video 4 2).codec) ∧
    (demo_opened []).current_frame = none ∧ (demo_opened []).playing = false ∧
    (demo_opened []).scaled_width = 4 ∧ (demo_opened []).scaled_height = 2 ∧
    ∃ (ctx : AVFormatContext) (vs : AVStream) (n : Nat) (fd : ffmpeg_data) (buf bmp : Handle),
      (demo_env []).avformat_open_input = some ctx ∧ ctx.streams.get? n = some vs ∧
      vs.codec.codec_type = AVMediaType.video ∧
      (∀ (j : Nat) (t : AVStream), j < n → ctx.streams.get? j = some t →
        t.codec.codec_type ≠ AVMediaType.video) ∧
      (demo_opened []).position = 0 ∧ (demo_opened []).video_position = 0 ∧
      (demo_opened []).audio_position = 0 ∧
      (demo_opened []).playing = false ∧ (demo_opened []).data = some fd ∧
      fd.ad.endOfStream = false ∧
      (demo_opened []).current_frame = demo_fresh.current_frame ∧
      (demo_fresh.current_frame = none → (demo_opened []).current_frame = none) ∧
      (demo_opened []).scaled_width = (vs.codec.width : Rat) ∧
      (demo_opened []).scaled_height = (vs.codec.height : Rat) ∧
      fd.bufferRGB = some buf ∧
      fd.frameRGB = some { data0 := some buf, linesize0 := vs.codec.width * 3 } ∧
      fd.ad.frameBitmap = some bmp ∧
      acquired Res.bufferRGB (opened_ledger (demo_stream AVMediaType.video 4 2).codec) =
        acquired Res.bufferRGB [] + 1 ∧
      acquired Res.frameBitmap (opened_ledger (demo_stream AVMediaType.video 4 2).codec) =
        acquired Res.frameBitmap [] + 1 ∧
      Event.acquire Res.bufferRGB [vs.codec.width * 3 * vs.codec.height] ∈
        opened_ledger vs.codec ∧
      Event.acquire Res.frameBitmap [vs.codec.width, vs.codec.height] ∈ opened_ledger vs.codec ∧
      opened_ledger (demo_stream AVMediaType.video 4 2).codec =
        [] ++ opened_ledger vs.codec :=
  ⟨demo_open [], rfl, rfl, rfl, rfl,
   C9_open_post_state (demo_env []) demo_fresh (demo_opened []) []
     (opened_ledger (demo_stream AVMediaType.video 4 2).codec) (demo_open [])
     (by intro ctx hctx; cases hctx; decide)⟩

/-- C8, as stated, fails. On the fully opened demo session the first
`ffmpeg_close_video` returns true and leaves `video->data` NULL; the second call, on
that closed session, violates the entry assertion `video && video->data` and yields
no result. The same happens for a Close right after the failed Open of the
video-only container. -/
theorem C8_second_close_violates_assertion :
    (ffmpeg_close_video (demo_opened []) []).map (fun r => (r.1, r.2.1)) =
      some (true, demo_closed) ∧
    demo_closed.data = none ∧
    ffmpeg_close_video demo_closed [] = none ∧
    (ffmpeg_open_video demo_env_video_only demo_fresh []).map (fun r => (r.1, r.2.1)) =
      some (false, demo_fresh) ∧
    ffmpeg_close_video demo_fresh [] = none := by
  exact ⟨rfl, rfl, rfl, rfl, rfl⟩

/-- C8, amended. On every session that holds a backend record (fully or partially
opened), one `ffmpeg_close_video` returns true, stops playback, leaves `video->data`
NULL, and its releases contain each resource the record holds exactly once and each
resource it does not hold not at all, with no acquisition; a second call on the closed
session violates the entry assertion and therefore releases nothing. -/
theorem C8_close_releases_once (video : ALLEGRO_VIDEO) (log : List Event) (fd : ffmpeg_data)
    (h : video.data = some fd) :
    ffmpeg_close_video video log =
      some (true, { video with playing := false, data := none },
        log ++ ffmpeg_close_video_releases fd) ∧
    (∀ r, released r (ffmpeg_close_video_releases fd) = if fd.holds r then 1 else 0) ∧
    (∀ r, acquired r (ffmpeg_close_video_releases fd) = 0) ∧
    ∀ log2, ffmpeg_close_video { video with playing := false, data := none } log2 = none :=
  ⟨close_video_some video log fd h, released_close_releases fd, acquired_close_releases fd,
   fun log2 => close_video_none _ log2 rfl⟩

/-- C8 (amended) at the partially opened demo session: the container and the record are
released once each, nothing else is touched, and a second Close yields no result. -/
theorem C8_close_releases_once_witness :
    demo_half_open.data = some { ffmpeg_data.zero with formatCtx := some (demo_container []) } ∧
    ffmpeg_close_video_releases { ffmpeg_data.zero with formatCtx := some (demo_container []) } =
      [Event.release Res.formatCtx, Event.release Res.sessionData] ∧
    (ffmpeg_close_video demo_half_open [] =
      some (true, { demo_half_open with playing := false, data := none },
        [] ++ ffmpeg_close_video_releases
          { ffmpeg_data.zero with formatCtx := some (demo_container []) }) ∧
    (∀ r, released r (ffmpeg_close_video_releases
        { ffmpeg_data.zero with formatCtx := some (demo_container []) }) =
      if ffmpeg_data.holds { ffmpeg_data.zero with formatCtx := some (demo_container []) } r
      then 1 else 0) ∧
    (∀ r, acquired r (ffmpeg_close_video_releases
        { ffmpeg_data.zero with formatCtx := some (demo_container []) }) = 0) ∧
    ∀ log2, ffmpeg_close_video { demo_half_open with playing := false, data := none } log2 =
      none) :=
  ⟨rfl, rfl, C8_close_releases_once demo_half_open []
    { ffmpeg_data.zero with formatCtx := some (demo_container []) } rfl⟩

theorem memcpy_inside (dst src : Memory) (dstOff srcOff : Int) (n : Nat) (x : Int)
    (h0 : 0 ≤ x) (h1 : x < n) :
    memcpy dst dstOff src srcOff n (dstOff + x) = src (srcOff + x) := by
  unfold memcpy
  rw [if_pos ⟨by omega, by omega⟩]
  congr 1
  omega

theorem memcpy_below (dst src : Memory) (dstOff srcOff : Int) (n : Nat) (a : Int)
    (h : a < dstOff) :
    memcpy dst dstOff src srcOff n a = dst a := by
  unfold memcpy
  rw [if_neg (by omega)]

theorem rows_copy (src : Memory) (sizeBytes linePitch pitch : Int)
    (hs : 0 ≤ sizeBytes) (hp : sizeBytes ≤ pitch) (rows : Nat) :
    ∀ (out : Memory) (outOff srcOff : Int),
      ∃ m, ffmpeg_update_video_frame_to_bitmap_rows src sizeBytes linePitch pitch rows
          out outOff srcOff = some m ∧
        (∀ (y : Nat) (x : Int), y < rows → 0 ≤ x → x < sizeBytes →
          m (outOff + y * pitch + x) = src (srcOff + y * linePitch + x)) ∧
        (∀ a, a < outOff → m a = out a) := by
  induction rows with
  | zero =>
    intro out outOff srcOff
    exact ⟨out, rfl, by intro y x hy; omega, fun _ _ => rfl⟩
  | succ k ih =>
    intro out outOff srcOff
    obtain ⟨m, hm, hrows, hbelow⟩ :=
      ih (memcpy out outOff src srcOff sizeBytes.toNat) (outOff + pitch) (srcOff + linePitch)
    refine ⟨m, ?_, ?_, ?_⟩
    · simp only [ffmpeg_update_video_frame_to_bitmap_rows]
      rw [if_neg (by omega)]
      exact hm
    · intro y x hy hx0 hx1
      cases y with
      | zero =>
        have e : outOff + ((0 : Nat) : Int) * pitch + x = outOff + x := by simp
        have e2 : srcOff + ((0 : Nat) : Int) * linePitch + x = srcOff + x := by simp
        rw [e, e2, hbelow _ (by omega)]
        exact memcpy_inside _ _ _ _ _ _ hx0 (by rw [Int.toNat_of_nonneg hs]; exact hx1)
      | succ j =>
        have e : outOff + ((j + 1 : Nat) : Int) * pitch + x =
            outOff + pitch + (j : Int) * pitch + x := by push_cast; ring
        have e2 : srcOff + ((j + 1 : Nat) : Int) * linePitch + x =
            srcOff + linePitch + (j : Int) * linePitch + x := by push_cast; ring
        rw [e, e2]
        exact hrows j x (by omega) hx0 hx1
    · intro a ha
      rw [hbelow a (by omega)]
      exact memcpy_below _ _ _ _ _ _ ha

theorem int_mul_some (a b : Int) (h0 : 0 ≤ a * b) (h1 : a * b ≤ INT_MAX) :
    int_mul a b = some (a * b) := by
  unfold int_mul
  rw [if_pos ⟨by unfold INT_MAX; omega, h1⟩]

/-- C7, as stated, fails. For width 1, height 2 and a source frame with row pitch 4
(larger than 3), the contiguous path (surface stride 3) puts source byte 3, the
padding byte of row 0, at the start of surface row 1, while the row-by-row path
(surface stride 4) puts source byte 4, the first byte of source row 1, there. -/
theorem C7_padded_source_paths_differ :
    (ffmpeg_update_video_frame_to_bitmap (some demo_padded_frame) demo_src (some 700)
        (some { data := fun _ => 0, pitch := 3 }) 1 2).map (fun r => r.1) = some true ∧
    (ffmpeg_update_video_frame_to_bitmap (some demo_padded_frame) demo_src (some 700)
        (some { data := fun _ => 0, pitch := 4 }) 1 2).map (fun r => r.1) = some true ∧
    surface_byte (ffmpeg_update_video_frame_to_bitmap (some demo_padded_frame) demo_src
        (some 700) (some { data := fun _ => 0, pitch := 3 }) 1 2) (1 * 3 + 0) = some 3 ∧
    surface_byte (ffmpeg_update_video_frame_to_bitmap (some demo_padded_frame) demo_src
        (some 700) (some { data := fun _ => 0, pitch := 4 }) 1 2) (1 * 4 + 0) = some 4 ∧
    demo_src (1 * demo_padded_frame.linesize0 + 0) = 4 := by
  exact ⟨rfl, rfl, rfl, rfl, rfl⟩

theorem frame_to_bitmap_packed (frame : AVFrame) (src d : Memory) (bitmap : Handle)
    (w h : Int) (hw : 0 ≤ w) (hh : 0 ≤ h) (hrow : w * 3 ≤ INT_MAX)
    (hsize : w * 3 * h ≤ INT_MAX) :
    ffmpeg_update_video_frame_to_bitmap (some frame) src (some bitmap)
        (some { data := d, pitch := w * 3 }) w h =
      some (true, some (memcpy d 0 src 0 (w * 3 * h).toNat)) := by
  have h3 : 0 ≤ w * 3 := by omega
  have h4 : 0 ≤ w * 3 * h := Int.mul_nonneg h3 hh
  unfold ffmpeg_update_video_frame_to_bitmap
  simp only [int_mul_some w 3 h3 hrow, int_mul_some (w * 3) h h4 hsize]
  rw [if_neg (by simp), if_pos trivial, if_neg (by omega)]

theorem frame_to_bitmap_padded (frame : AVFrame) (src d : Memory) (bitmap : Handle)
    (w h pitch : Int) (hw : 0 ≤ w) (hrow : w * 3 ≤ INT_MAX) (hp : w * 3 < pitch) :
    ∃ m, ffmpeg_update_video_frame_to_bitmap (some frame) src (some bitmap)
        (some { data := d, pitch := pitch }) w h = some (true, some m) ∧
      ∀ (y : Nat) (x : Int), (y : Int) < h → 0 ≤ x → x < w * 3 →
        m (y * pitch + x) = src (y * frame.linesize0 + x) := by
  have h3 : 0 ≤ w * 3 := by omega
  obtain ⟨m, hm, hrows, -⟩ :=
    rows_copy src (w * 3) frame.linesize0 pitch h3 (le_of_lt hp) h.toNat d 0 0
  refine ⟨m, ?_, ?_⟩
  · unfold ffmpeg_update_video_frame_to_bitmap
    simp only [int_mul_some w 3 h3 hrow]
    rw [if_neg (by simp; omega), if_neg (by omega), hm]
  · intro y x hy hx0 hx1
    have := hrows y x (by omega) hx0 hx1
    simpa using this

/-- C7, amended. For width `w`, height `h` (non-negative, `3*w*h` within a C `int`)
both copy paths succeed. The contiguous path (surface stride `3*w`) copies the first
`3*w*h` source bytes as they lie: surface row `y` is source bytes
`[3*w*y, 3*w*y + 3*w)`. The row-by-row path (surface stride larger than `3*w`) makes
surface row `y` equal to source row `y`, taken at the source row pitch `linesize`.
Hence for a source with packed rows, `linesize = 3*w`, the two surfaces are
byte-identical over the first `3*w` bytes of each of the `h` rows, and row `y` of
either equals row `y` of the source frame. -/
theorem C7_copy_paths_agree (frame : AVFrame) (src d1 d2 : Memory) (bitmap : Handle)
    (w h pitch : Int) (hw : 0 ≤ w) (hh : 0 ≤ h) (hrow : w * 3 ≤ INT_MAX)
    (hsize : w * 3 * h ≤ INT_MAX) (hp : w * 3 < pitch) :
    ∃ m1 m2,
      ffmpeg_update_video_frame_to_bitmap (some frame) src (some bitmap)
        (some { data := d1, pitch := w * 3 }) w h = some (true, some m1) ∧
      ffmpeg_update_video_frame_to_bitmap (some frame) src (some bitmap)
        (some { data := d2, pitch := pitch }) w h = some (true, some m2) ∧
      (∀ (y : Nat) (x : Int), (y : Int) < h → 0 ≤ x → x < w * 3 →
        m1 (y * (w * 3) + x) = src (y * (w * 3) + x)) ∧
      (∀ (y : Nat) (x : Int), (y : Int) < h → 0 ≤ x → x < w * 3 →
        m2 (y * pitch + x) = src (y * frame.linesize0 + x)) ∧
      (frame.linesize0 = w * 3 →
        ∀ (y : Nat) (x : Int), (y : Int) < h → 0 ≤ x → x < w * 3 →
          m1 (y * (w * 3) + x) = m2 (y * pitch + x) ∧
          m1 (y * (w * 3) + x) = src (y * frame.linesize0 + x)) := by
  obtain ⟨m2, hm2, hrows2⟩ := frame_to_bitmap_padded frame src d2 bitmap w h pitch hw hrow hp
  have hpacked : ∀ (y : Nat) (x : Int), (y : Int) < h → 0 ≤ x → x < w * 3 →
      memcpy d1 0 src 0 (w * 3 * h).toNat (y * (w * 3) + x) = src (y * (w * 3) + x) := by
    intro y x hy hx0 hx1
    have h3 : 0 ≤ w * 3 := by omega
    have hy0 : (0 : Int) ≤ y := Int.ofNat_nonneg y
    have hk0 : 0 ≤ (y : Int) * (w * 3) + x := by
      have := Int.mul_nonneg hy0 h3
      omega
    have hk1 : (y : Int) * (w * 3) + x < ((w * 3 * h).toNat : Int) := by
      rw [Int.toNat_of_nonneg (Int.mul_nonneg h3 hh)]
      have hle : ((y : Int) + 1) * (w * 3) ≤ h * (w * 3) :=
        Int.mul_le_mul_of_nonneg_right (by omega) h3
      have e1 : ((y : Int) + 1) * (w * 3) = (y : Int) * (w * 3) + w * 3 := by ring
      have e2 : h * (w * 3) = w * 3 * h := by ring
      omega
    have := memcpy_inside d1 src 0 0 (w * 3 * h).toNat _ hk0 hk1
    simpa using this
  refine ⟨_, m2, frame_to_bitmap_packed frame src d1 bitmap w h hw hh hrow hsize, hm2,
    hpacked, hrows2, ?_⟩
  intro hl y x hy hx0 hx1
  rw [hpacked y x hy hx0 hx1, hrows2 y x hy hx0 hx1, hl]
  exact ⟨rfl, rfl⟩

/-- C7 (amended) at width 4, height 2, a packed source and surface strides 12 and 16. -/
theorem C7_copy_paths_agree_witness :
    (0 : Int) ≤ 4 ∧ (4 : Int) * 3 * 2 ≤ INT_MAX ∧ (4 : Int) * 3 < 16 ∧
    demo_packed_frame.linesize0 = 4 * 3 ∧
    surface_byte (ffmpeg_update_video_frame_to_bitmap (some demo_packed_frame) demo_src
        (some 700) (some { data := fun _ => 0, pitch := 4 * 3 }) 4 2) (1 * 12 + 5) = some 17 ∧
    surface_byte (ffmpeg_update_video_frame_to_bitmap (some demo_packed_frame) demo_src
        (some 700) (some { data := fun _ => 0, pitch := 16 }) 4 2) (1 * 16 + 5) = some 17 ∧
    ∃ m1 m2,
      ffmpeg_update_video_frame_to_bitmap (some demo_packed_frame) demo_src (some 700)
        (some { data := fun _ => 0, pitch := 4 * 3 }) 4 2 = some (true, some m1) ∧
      ffmpeg_update_video_frame_to_bitmap (some demo_packed_frame) demo_src (some 700)
        (some { data := fun _ => 0, pitch := 16 }) 4 2 = some (true, some m2) ∧
      (∀ (y : Nat) (x : Int), (y : Int) < 2 → 0 ≤ x → x < 4 * 3 →
        m1 (y * (4 * 3) + x) = demo_src (y * (4 * 3) + x)) ∧
      (∀ (y : Nat) (x : Int), (y : Int) < 2 → 0 ≤ x → x < 4 * 3 →
        m2 (y * 16 + x) = demo_src (y * demo_packed_frame.linesize0 + x)) ∧
      (demo_packed_frame.linesize0 = 4 * 3 →
        ∀ (y : Nat) (x : Int), (y : Int) < 2 → 0 ≤ x → x < 4 * 3 →
          m1 (y * (4 * 3) + x) = m2 (y * 16 + x) ∧
          m1 (y * (4 * 3) + x) = demo_src (y * demo_packed_frame.linesize0 + x)) :=
  ⟨by decide, by decide, by decide, rfl, rfl, rfl,
   C7_copy_paths_agree demo_packed_frame demo_src (fun _ => 0) (fun _ => 0) 700 4 2 16
     (by decide) (by decide) (by decide) (by decide) (by decide)⟩

theorem frame_to_bitmap_ok (frame : AVFrame) (src : Memory) (bitmap : Handle)
    (lock : ALLEGRO_LOCKED_REGION) (w h : Int) (hw : 0 ≤ w) (hh : 0 ≤ h)
    (hrow : w * 3 ≤ INT_MAX) (hsize : w * 3 * h ≤ INT_MAX) (hp : w * 3 ≤ lock.pitch) :
    ∃ m, ffmpeg_update_video_frame_to_bitmap (some frame) src (some bitmap) (some lock) w h =
      some (true, some m) := by
  rcases lt_or_eq_of_le hp with hlt | heq
  · obtain ⟨m, hm, -⟩ :=
      frame_to_bitmap_padded frame src lock.data bitmap w h lock.pitch hw hrow hlt
    exact ⟨m, hm⟩
  · have e : lock = { data := lock.data, pitch := w * 3 } := by
      cases lock; simp only at heq; subst heq; rfl
    rw [e]
    exact ⟨_, frame_to_bitmap_packed frame src lock.data bitmap w h hw hh hrow hsize⟩

theorem update_video_read_failed (env : UpdateEnv) (video : ALLEGRO_VIDEO) (fd : ffmpeg_data)
    (ctx : AVFormatContext) (hd : video.data = some fd) (hc : fd.formatCtx = some ctx)
    (hr : (av_read_frame ctx).1 < 0) :
    ffmpeg_update_video env video =
      some (false, { video with playing := false, data := some (updated_data fd ctx) }, none) := by
  unfold ffmpeg_update_video
  simp only [hd, hc, hr, if_true, ffmpeg_set_video_playing, updated_data]
  simp

theorem update_video_not_ready (env : UpdateEnv) (video : ALLEGRO_VIDEO) (fd : ffmpeg_data)
    (ctx : AVFormatContext) (vc : AVCodecContext) (fn : AVFrame) (rd : ReadResult)
    (rest : List ReadResult)
    (hd : video.data = some fd) (hc : fd.formatCtx = some ctx)
    (hvc : fd.videoCodecCtx = some vc) (hfn : fd.frameNative = some fn)
    (hpend : ctx.pending = rd :: rest) (hret : ¬ rd.ret < 0)
    (hgot : rd.packet.got_picture = false) :
    ffmpeg_update_video env video =
      some (false, { video with data := some (updated_data fd ctx) }, none) := by
  unfold ffmpeg_update_video
  simp only [hd, hc, av_read_frame, hpend, hret, if_false, hvc, hfn, hgot, updated_data]
  simp

theorem update_video_lock_failed (env : UpdateEnv) (video : ALLEGRO_VIDEO) (fd : ffmpeg_data)
    (ctx : AVFormatContext) (vc : AVCodecContext) (fn fr : AVFrame) (sws bmp : Handle)
    (rd : ReadResult) (rest : List ReadResult)
    (hd : video.data = some fd) (hc : fd.formatCtx = some ctx)
    (hvc : fd.videoCodecCtx = some vc) (hfn : fd.frameNative = some fn)
    (hfr : fd.frameRGB = some fr) (hsws : fd.swScaleCtx = some sws)
    (hbmp : fd.ad.frameBitmap = some bmp)
    (hpend : ctx.pending = rd :: rest) (hret : ¬ rd.ret < 0)
    (hgot : rd.packet.got_picture = true) (hlock : env.al_lock_bitmap = none) :
    ffmpeg_update_video env video =
      some (false, { video with data := some (updated_data fd ctx), current_frame := none },
        none) := by
  unfold ffmpeg_update_video
  simp only [hd, hc, av_read_frame, hpend, hret, if_false, hvc, hfn, hgot, updated_data, hsws,
    hfr, hbmp, hlock, ffmpeg_update_video_frame_to_bitmap]
  simp
  rw [← hbmp]

theorem update_video_frame (env : UpdateEnv) (video : ALLEGRO_VIDEO) (fd : ffmpeg_data)
    (ctx : AVFormatContext) (vc : AVCodecContext) (fn fr : AVFrame) (sws bmp : Handle)
    (rd : ReadResult) (rest : List ReadResult) (lock : ALLEGRO_LOCKED_REGION)
    (hd : video.data = some fd) (hc : fd.formatCtx = some ctx)
    (hvc : fd.videoCodecCtx = some vc) (hfn : fd.frameNative = some fn)
    (hfr : fd.frameRGB = some fr) (hsws : fd.swScaleCtx = some sws)
    (hbmp : fd.ad.frameBitmap = some bmp)
    (hpend : ctx.pending = rd :: rest) (hret : ¬ rd.ret < 0)
    (hgot : rd.packet.got_picture = true) (hlock : env.al_lock_bitmap = some lock)
    (hw : 0 ≤ vc.width) (hh : 0 ≤ vc.height) (hrow : vc.width * 3 ≤ INT_MAX)
    (hsize : vc.width * 3 * vc.height ≤ INT_MAX) (hp : vc.width * 3 ≤ lock.pitch) :
    ∃ m, ffmpeg_update_video env video =
      some (true, { video with data := some (updated_data fd ctx), current_frame := some bmp },
        some m) := by
  obtain ⟨m, hm⟩ := frame_to_bitmap_ok fr env.sws_scale bmp lock vc.width vc.height hw hh hrow
    hsize hp
  refine ⟨m, ?_⟩
  unfold ffmpeg_update_video
  simp only [hd, hc, av_read_frame, hpend, hret, if_false, hvc, hfn, hgot, updated_data, hsws,
    hfr, hbmp, hlock, hm]
  simp
  rw [← hbmp]

theorem update_video_some (env : UpdateEnv) (video v1 : ALLEGRO_VIDEO) (r : Bool)
    (mem : Option Memory) (h : ffmpeg_update_video env video = some (r, v1, mem)) :
    ∃ fd ctx, video.data = some fd ∧ fd.formatCtx = some ctx ∧
      v1.data = some (updated_data fd ctx) := by
  unfold ffmpeg_update_video at h
  split at h
  · simp at h
  rename_i fd hd
  split at h
  · simp at h
  rename_i ctx hc
  refine ⟨fd, ctx, hd, hc, ?_⟩
  simp only at h
  split at h
  · rename_i hr
    simp only [ffmpeg_set_video_playing, if_true, Option.some.injEq, Prod.mk.injEq] at h
    rw [← h.2.1]
    simp [updated_data, hr]
  · rename_i hr
    split at h
    · split at h
      · simp only [Option.some.injEq, Prod.mk.injEq] at h
        rw [← h.2.1]
        simp [updated_data, hr]
      · split at h
        · simp at h
        · split at h
          · simp at h
          · simp only [Option.some.injEq, Prod.mk.injEq] at h
            rw [← h.2.1]
            simp [updated_data, hr]
          · simp only [Option.some.injEq, Prod.mk.injEq] at h
            rw [← h.2.1]
            simp [updated_data, hr]
    · simp at h

theorem ready_fields (fd : ffmpeg_data) (h : fd.ready = true) :
    ∃ ctx vc fn fr sws bmp, fd.formatCtx = some ctx ∧ fd.videoCodecCtx = some vc ∧
      fd.frameNative = some fn ∧ fd.frameRGB = some fr ∧ fd.swScaleCtx = some sws ∧
      fd.ad.frameBitmap = some bmp ∧ 0 ≤ vc.width ∧ 0 ≤ vc.height ∧
      vc.width * 3 ≤ INT_MAX ∧ vc.width * 3 * vc.height ≤ INT_MAX := by
  unfold ffmpeg_data.ready at h
  simp only [Bool.and_eq_true] at h
  obtain ⟨⟨⟨⟨⟨h1, h2⟩, h3⟩, h4⟩, h5⟩, h6⟩ := h
  obtain ⟨ctx, hc⟩ := Option.isSome_iff_exists.mp h1
  obtain ⟨fn, hfn⟩ := Option.isSome_iff_exists.mp h2
  obtain ⟨fr, hfr⟩ := Option.isSome_iff_exists.mp h3
  obtain ⟨sws, hsws⟩ := Option.isSome_iff_exists.mp h4
  obtain ⟨bmp, hbmp⟩ := Option.isSome_iff_exists.mp h5
  split at h6
  · simp at h6
  · rename_i vc hvc
    simp only [Bool.and_eq_true, decide_eq_true_eq] at h6
    exact ⟨ctx, vc, fn, fr, sws, bmp, hc, hvc, hfn, hfr, hsws, hbmp, h6.1.1.1, h6.1.1.2,
      h6.1.2, h6.2⟩

theorem session_ready_data (video : ALLEGRO_VIDEO) (h : session_ready video = true) :
    ∃ fd, video.data = some fd ∧ fd.ready = true := by
  unfold session_ready at h
  split at h
  · simp at h
  · rename_i fd hd
    exact ⟨fd, hd, h⟩

theorem update_video_ready (env : UpdateEnv) (video : ALLEGRO_VIDEO)
    (hready : session_ready video = true) (hfit : lock_fits env video = true) :
    ∃ fd ctx mem, video.data = some fd ∧ fd.formatCtx = some ctx ∧
      ffmpeg_update_video env video =
        some (decide (update_case env video = UpdateCase.frame),
          updated_video env video fd ctx, mem) ∧
      (update_case env video ≠ UpdateCase.frame → mem = none) := by
  obtain ⟨fd, hd, hfd⟩ := session_ready_data video hready
  obtain ⟨ctx, vc, fn, fr, sws, bmp, hc, hvc, hfn, hfr, hsws, hbmp, hw, hh, hrow, hsize⟩ :=
    ready_fields fd hfd
  have hpr : pending_reads video = ctx.pending := by
    simp [pending_reads, hd, hc]
  cases hpend : ctx.pending with
  | nil =>
    have hr : (av_read_frame ctx).1 < 0 := by
      simp [av_read_frame, hpend, AVERROR_EOF]
    have hcase : update_case env video = UpdateCase.read_failed := by
      simp [update_case, hpr, hpend]
    refine ⟨fd, ctx, none, hd, hc, ?_, fun _ => rfl⟩
    rw [update_video_read_failed env video fd ctx hd hc hr]
    simp [updated_video, updated_data, hcase]
  | cons rd rest =>
    by_cases hret : rd.ret < 0
    · have hr : (av_read_frame ctx).1 < 0 := by
        simp [av_read_frame, hpend, hret]
      have hcase : update_case env video = UpdateCase.read_failed := by
        simp [update_case, hpr, hpend, hret]
      refine ⟨fd, ctx, none, hd, hc, ?_, fun _ => rfl⟩
      rw [update_video_read_failed env video fd ctx hd hc hr]
      simp [updated_video, updated_data, hcase]
    · cases hgot : rd.packet.got_picture with
      | false =>
        have hcase : update_case env video = UpdateCase.not_ready := by
          simp [update_case, hpr, hpend, hret, hgot]
        refine ⟨fd, ctx, none, hd, hc, ?_, fun _ => rfl⟩
        rw [update_video_not_ready env video fd ctx vc fn rd rest hd hc hvc hfn
          hpend hret hgot]
        simp [updated_video, updated_data, hcase]
      | true =>
        cases hlock : env.al_lock_bitmap with
        | none =>
          have hcase : update_case env video = UpdateCase.lock_failed := by
            simp [update_case, hpr, hpend, hret, hgot, hlock]
          refine ⟨fd, ctx, none, hd, hc, ?_, fun _ => rfl⟩
          rw [update_video_lock_failed env video fd ctx vc fn fr sws bmp rd rest
            hd hc hvc hfn hfr hsws hbmp hpend hret hgot hlock]
          simp [updated_video, updated_data, hcase]
        | some lock =>
          have hcase : update_case env video = UpdateCase.frame := by
            simp [update_case, hpr, hpend, hret, hgot, hlock]
          have hp : vc.width * 3 ≤ lock.pitch := by
            simpa [lock_fits, hlock, hd, hvc] using hfit
          obtain ⟨m, hm⟩ := update_video_frame env video fd ctx vc fn fr sws bmp
            rd rest lock hd hc hvc hfn hfr hsws hbmp hpend hret hgot hlock hw hh
            hrow hsize hp
          refine ⟨fd, ctx, some m, hd, hc, ?_, fun hne => absurd hcase hne⟩
          rw [hm]
          simp [updated_video, updated_data, hcase, hbmp]

theorem updated_video_ready (env : UpdateEnv) (video : ALLEGRO_VIDEO) (fd : ffmpeg_data)
    (ctx : AVFormatContext) (h : fd.ready = true) :
    session_ready (updated_video env video fd ctx) = true := by
  unfold ffmpeg_data.ready at h
  simp only [Bool.and_eq_true] at h
  simp only [session_ready, updated_video, ffmpeg_data.ready, Bool.and_eq_true]
  exact ⟨⟨⟨⟨⟨rfl, h.1.1.1.1.2⟩, h.1.1.1.2⟩, h.1.1.2⟩, h.1.2⟩, h.2⟩

theorem av_read_frame_pending (ctx : AVFormatContext) :
    (av_read_frame ctx).2.2.pending = ctx.pending.tail := by
  unfold av_read_frame
  cases h : ctx.pending <;> simp [h]

theorem updated_video_pending (env : UpdateEnv) (video : ALLEGRO_VIDEO) (fd : ffmpeg_data)
    (ctx : AVFormatContext) :
    pending_reads (updated_video env video fd ctx) = ctx.pending.tail := by
  simp [pending_reads, updated_video, av_read_frame_pending]

theorem updated_video_lock_fits (e env : UpdateEnv) (video : ALLEGRO_VIDEO) (fd : ffmpeg_data)
    (ctx : AVFormatContext) (hd : video.data = some fd) :
    lock_fits e (updated_video env video fd ctx) = lock_fits e video := by
  simp only [lock_fits, updated_video, hd]
  cases e.al_lock_bitmap <;> rfl

theorem read_fails_iff (video : ALLEGRO_VIDEO) (fd : ffmpeg_data) (ctx : AVFormatContext)
    (hd : video.data = some fd) (hc : fd.formatCtx = some ctx) :
    read_fails video = true ↔ (av_read_frame ctx).1 < 0 := by
  unfold read_fails pending_reads av_read_frame
  simp only [hd, hc]
  cases ctx.pending <;> simp [AVERROR_EOF]

theorem has_container_fields (video : ALLEGRO_VIDEO) (h : has_container video = true) :
    ∃ fd ctx, video.data = some fd ∧ fd.formatCtx = some ctx := by
  unfold has_container at h
  split at h
  · rename_i fd hd
    obtain ⟨ctx, hc⟩ := Option.isSome_iff_exists.mp h
    exact ⟨fd, ctx, hd, hc⟩
  · simp at h

theorem run_op_keeps (op : Op) (video v1 : ALLEGRO_VIDEO) (r : Bool)
    (h : run_op op video = some (r, v1)) :
    has_container video = true → has_container v1 = true ∧
      (end_of_stream video = true → end_of_stream v1 = true) := by
  intro hcont
  cases op with
  | start =>
    simp only [run_op, ffmpeg_start_video] at h
    split at h
    · simp at h
    · rename_i fd hd
      simp only [Option.some.injEq, Prod.mk.injEq] at h
      rw [← h.2]
      constructor
      · simpa [has_container, hd] using hcont
      · intro he
        simpa [end_of_stream, hd] using he
  | update env =>
    simp only [run_op] at h
    split at h
    · simp at h
    · rename_i r1 v2 mem hu
      simp only [Option.some.injEq, Prod.mk.injEq] at h
      obtain ⟨fd, ctx, hd, hc, hv2⟩ := update_video_some env video v2 r1 mem hu
      rw [← h.2]
      constructor
      · simp [has_container, hv2, updated_data]
      · intro he
        have : fd.ad.endOfStream = true := by simpa [end_of_stream, hd] using he
        simp [end_of_stream, hv2, updated_data, this]

theorem run_ops_keeps (ops : List Op) :
    ∀ (video v1 : ALLEGRO_VIDEO) (rs : List Bool), run_ops ops video = some (rs, v1) →
      has_container video = true → has_container v1 = true ∧
        (end_of_stream video = true → end_of_stream v1 = true) := by
  induction ops with
  | nil =>
    intro video v1 rs h hcont
    simp only [run_ops, Option.some.injEq, Prod.mk.injEq] at h
    rw [← h.2]
    exact ⟨hcont, fun he => he⟩
  | cons op ops ih =>
    intro video v1 rs h hcont
    simp only [run_ops] at h
    split at h
    · simp at h
    · rename_i r v2 hop
      split at h
      · simp at h
      · rename_i rs2 v3 hrest
        simp only [Option.some.injEq, Prod.mk.injEq] at h
        rw [← h.2]
        obtain ⟨hc2, he2⟩ := run_op_keeps op video v2 r hop hcont
        obtain ⟨hc3, he3⟩ := ih v2 v3 rs2 hrest hc2
        exact ⟨hc3, fun he => he3 (he2 he)⟩

theorem update_at_failed_read (env : UpdateEnv) (video : ALLEGRO_VIDEO)
    (hcont : has_container video = true) (hfail : read_fails video = true) :
    ∃ v1, ffmpeg_update_video env video = some (false, v1, none) ∧
      end_of_stream v1 = true ∧ v1.playing = false ∧ has_container v1 = true := by
  obtain ⟨fd, ctx, hd, hc⟩ := has_container_fields video hcont
  have hr := (read_fails_iff video fd ctx hd hc).mp hfail
  refine ⟨_, update_video_read_failed env video fd ctx hd hc hr, ?_, rfl, ?_⟩
  · simp [end_of_stream, updated_data, hr]
  · simp [has_container, updated_data]

theorem opened_has_container (env : OpenEnv) (video v1 : ALLEGRO_VIDEO) (log log1 : List Event)
    (h : ffmpeg_open_video env video log = some (true, v1, log1)) :
    has_container v1 = true := by
  obtain ⟨f, ctx, p, vs, aus, vcodec, acodec, sws, buf, bmp, -, -, -, -, -, -, -, -, -, hv1, -⟩ :=
    open_video_true env video v1 log log1 h
  rw [hv1]
  rfl

/-- C5. For every successfully opened session: one Start makes `playing` true; and
after any sequence of Start and Update calls that went through, an Update whose
packet read fails or hits end of input returns false (no frame) and leaves
endOfStream true and playing false; after any further calls endOfStream is still
true, and every Update on the exhausted container again returns false with
endOfStream true and playing false. -/
theorem C5_end_of_stream_stops_playback (env : OpenEnv) (video v1 : ALLEGRO_VIDEO)
    (log log1 : List Event)
    (hopen : ffmpeg_open_video env video log = some (true, v1, log1)) :
    (ffmpeg_start_video v1).map (fun r => r.2.playing) = some true ∧
    ∀ (ops : List Op) (rs : List Bool) (v2 : ALLEGRO_VIDEO),
      run_ops ops v1 = some (rs, v2) → read_fails v2 = true →
      ∀ e : UpdateEnv, ∃ v3, ffmpeg_update_video e v2 = some (false, v3, none) ∧
        end_of_stream v3 = true ∧ v3.playing = false ∧
        ∀ (ops2 : List Op) (rs2 : List Bool) (v4 : ALLEGRO_VIDEO),
          run_ops ops2 v3 = some (rs2, v4) →
          end_of_stream v4 = true ∧
          (pending_reads v4 = [] →
            ∀ e2 : UpdateEnv, ∃ v5, ffmpeg_update_video e2 v4 = some (false, v5, none) ∧
              end_of_stream v5 = true ∧ v5.playing = false) := by
  have hc1 := opened_has_container env video v1 log log1 hopen
  constructor
  · obtain ⟨fd, ctx, hd, -⟩ := has_container_fields v1 hc1
    simp [ffmpeg_start_video, hd]
  · intro ops rs v2 hrun hfail e
    obtain ⟨hc2, -⟩ := run_ops_keeps ops v1 v2 rs hrun hc1
    obtain ⟨v3, hu, he3, hp3, hc3⟩ := update_at_failed_read e v2 hc2 hfail
    refine ⟨v3, hu, he3, hp3, ?_⟩
    intro ops2 rs2 v4 hrun2
    obtain ⟨hc4, he4⟩ := run_ops_keeps ops2 v3 v4 rs2 hrun2 hc3
    refine ⟨he4 he3, ?_⟩
    intro hex e2
    have hfail4 : read_fails v4 = true := by simp [read_fails, hex]
    obtain ⟨v5, hu5, he5, hp5, -⟩ := update_at_failed_read e2 v4 hc4 hfail4
    exact ⟨v5, hu5, he5, hp5⟩

/-- C5 at the demo container with one buffered packet and one picture: after
Start, Update, Start, Update the container is exhausted, and the next Update
reports no frame with endOfStream true and playing false. -/
theorem C5_end_of_stream_stops_playback_witness :
    ffmpeg_open_video (demo_env [demo_buffered_read, demo_frame_read]) demo_fresh [] =
      some (true, demo_opened [demo_buffered_read, demo_frame_read],
        opened_ledger (demo_stream AVMediaType.video 4 2).codec) ∧
    run_ops [Op.start, Op.update demo_update_env, Op.start, Op.update demo_update_env]
        (demo_opened [demo_buffered_read, demo_frame_read]) =
      some ([false, false, false, true], demo_playing) ∧
    read_fails demo_playing = true ∧
    demo_playing.playing = true ∧
    ∃ v3, ffmpeg_update_video demo_update_env demo_playing = some (false, v3, none) ∧
      end_of_stream v3 = true ∧ v3.playing = false ∧
      ∀ (ops2 : List Op) (rs2 : List Bool) (v4 : ALLEGRO_VIDEO),
        run_ops ops2 v3 = some (rs2, v4) →
        end_of_stream v4 = true ∧
        (pending_reads v4 = [] →
          ∀ e2 : UpdateEnv, ∃ v5, ffmpeg_update_video e2 v4 = some (false, v5, none) ∧
            end_of_stream v5 = true ∧ v5.playing = false) :=
  ⟨demo_open _, rfl, rfl, rfl,
   (C5_end_of_stream_stops_playback (demo_env [demo_buffered_read, demo_frame_read]) demo_fresh
      (demo_opened [demo_buffered_read, demo_frame_read]) []
      (opened_ledger (demo_stream AVMediaType.video 4 2).codec) (demo_open _)).2
      [Op.start, Op.update demo_update_env, Op.start, Op.update demo_update_env]
      [false, false, false, true] demo_playing rfl rfl demo_update_env⟩

/-- C6, as stated, fails. On the demo session an Update shows a frame
(`current_frame` becomes the frame bitmap, handle 700); the next Update finds the
container exhausted and returns false, and an Update fed a packet that the decoder only
buffers returns false as well: in both cases `current_frame` is still the frame
bitmap, not NULL. -/
theorem C6_no_frame_keeps_current_frame :
    (ffmpeg_update_video demo_update_env (demo_opened [demo_frame_read])).map
      (fun r => (r.1, r.2.1)) = some (true, demo_shown []) ∧
    (ffmpeg_update_video demo_update_env (demo_shown [])).map
      (fun r => (r.1, r.2.1.current_frame)) = some (false, some 700) ∧
    (ffmpeg_update_video demo_update_env (demo_shown [demo_buffered_read])).map
      (fun r => (r.1, r.2.1.current_frame)) = some (false, some 700) := by
  exact ⟨rfl, rfl, rfl⟩

/-- C6, amended. On every ready session (whatever `current_frame` holds) and for every
outcome of read, decode and surface lock (a granted lock having the asserted stride),
`ffmpeg_update_video` returns, and it returns true exactly when the packet was read,
completed a picture and the surface was locked; in that case `current_frame` is the
frame bitmap. When the surface lock failed `current_frame` is NULL afterwards. When the
read failed (end of stream) or the decoder was not ready, `current_frame` is left as
it was. -/
theorem C6_update_current_frame (env : UpdateEnv) (video : ALLEGRO_VIDEO)
    (hready : session_ready video = true) (hfit : lock_fits env video = true) :
    ∃ r v1 mem, ffmpeg_update_video env video = some (r, v1, mem) ∧
      (r = true ↔ update_case env video = UpdateCase.frame) ∧
      (update_case env video = UpdateCase.frame →
        v1.current_frame = frame_bitmap video ∧ v1.current_frame ≠ none) ∧
      (update_case env video = UpdateCase.lock_failed → v1.current_frame = none) ∧
      (update_case env video = UpdateCase.read_failed ∨
        update_case env video = UpdateCase.not_ready →
          v1.current_frame = video.current_frame) := by
  obtain ⟨fd, ctx, mem, hd, hc, hu, -⟩ := update_video_ready env video hready hfit
  obtain ⟨fd2, hd2, hfd⟩ := session_ready_data video hready
  have hfd2 : fd2 = fd := by rw [hd] at hd2; cases hd2; rfl
  subst hfd2
  obtain ⟨-, -, -, -, -, bmp, -, -, -, -, -, hbmp, -⟩ := ready_fields fd2 hfd
  refine ⟨_, _, mem, hu, by simp, ?_, ?_, ?_⟩
  · intro hcase
    simp [updated_video, hcase, frame_bitmap, hd, hbmp]
  · intro hcase
    simp [updated_video, hcase]
  · rintro (hcase | hcase) <;> simp [updated_video, hcase]

/-- C6 (amended) at the demo session with a frame already shown: on the exhausted
container the Update returns false and `current_frame` is left as it was. -/
theorem C6_update_current_frame_witness :
    session_ready (demo_shown []) = true ∧ lock_fits demo_update_env (demo_shown []) = true ∧
    update_case demo_update_env (demo_shown []) = UpdateCase.read_failed ∧
    ∃ r v1 mem, ffmpeg_update_video demo_update_env (demo_shown []) = some (r, v1, mem) ∧
      (r = true ↔ update_case demo_update_env (demo_shown []) = UpdateCase.frame) ∧
      (update_case demo_update_env (demo_shown []) = UpdateCase.frame →
        v1.current_frame = frame_bitmap (demo_shown []) ∧ v1.current_frame ≠ none) ∧
      (update_case demo_update_env (demo_shown []) = UpdateCase.lock_failed →
        v1.current_frame = none) ∧
      (update_case demo_update_env (demo_shown []) = UpdateCase.read_failed ∨
        update_case demo_update_env (demo_shown []) = UpdateCase.not_ready →
          v1.current_frame = (demo_shown []).current_frame) :=
  ⟨rfl, rfl, rfl, C6_update_current_frame demo_update_env (demo_shown []) rfl rfl⟩

theorem run_ops_update_cons (e : UpdateEnv) (ops : List Op) (video v1 v2 : ALLEGRO_VIDEO)
    (r : Bool) (rs : List Bool) (mem : Option Memory)
    (h1 : ffmpeg_update_video e video = some (r, v1, mem))
    (h2 : run_ops ops v1 = some (rs, v2)) :
    run_ops (Op.update e :: ops) video = some (r :: rs, v2) := by
  simp [run_ops, run_op, h1, h2]

theorem run_all_frames (envs : List UpdateEnv) :
    ∀ (video : ALLEGRO_VIDEO) (last : UpdateEnv), session_ready video = true →
      envs.length = (pending_reads video).length →
      (∀ rd ∈ pending_reads video, ¬ rd.ret < 0 ∧ rd.packet.got_picture = true) →
      (∀ e ∈ envs, e.al_lock_bitmap.isSome = true ∧ lock_fits e video = true) →
      ∃ v2, run_ops (envs.map Op.update ++ [Op.update last]) video =
          some (List.replicate envs.length true ++ [false], v2) ∧
        end_of_stream v2 = true ∧ v2.playing = false ∧ pending_reads v2 = [] := by
  induction envs with
  | nil =>
    intro video last hready hlen _ _
    obtain ⟨fd, hd, hfd⟩ := session_ready_data video hready
    obtain ⟨ctx, -, -, -, -, -, hc, -⟩ := ready_fields fd hfd
    have hpr : pending_reads video = ctx.pending := by simp [pending_reads, hd, hc]
    have hnil : ctx.pending = [] := by
      rw [← hpr]
      exact List.length_eq_zero.mp (by simpa using hlen.symm)
    have hr : (av_read_frame ctx).1 < 0 := by simp [av_read_frame, hnil, AVERROR_EOF]
    have hu := update_video_read_failed last video fd ctx hd hc hr
    refine ⟨{ video with playing := false, data := some (updated_data fd ctx) }, ?_, ?_, rfl, ?_⟩
    · exact run_ops_update_cons last [] video _ _ false [] none hu rfl
    · simp [end_of_stream, updated_data, hr]
    · simp [pending_reads, updated_data, av_read_frame_pending, hnil]
  | cons e envs ih =>
    intro video last hready hlen hreads hlocks
    obtain ⟨hlk, hfit⟩ := hlocks e (List.mem_cons_self _ _)
    obtain ⟨fd, ctx, mem, hd, hc, hu, -⟩ := update_video_ready e video hready hfit
    obtain ⟨fd2, hd2, hfd⟩ := session_ready_data video hready
    have hfd2 : fd2 = fd := by rw [hd] at hd2; cases hd2; rfl
    subst hfd2
    have hpr : pending_reads video = ctx.pending := by simp [pending_reads, hd, hc]
    cases hpend : ctx.pending with
    | nil => rw [hpr, hpend] at hlen; simp at hlen
    | cons rd rest =>
      have hrd := hreads rd (by rw [hpr, hpend]; exact List.mem_cons_self _ _)
      have hcase : update_case e video = UpdateCase.frame := by
        simp [update_case, hpr, hpend, hrd.1, hrd.2, hlk]
      have hpr1 : pending_reads (updated_video e video fd2 ctx) = rest := by
        rw [updated_video_pending, hpend]; rfl
      obtain ⟨v2, hrun, he, hp, hx⟩ := ih (updated_video e video fd2 ctx) last
        (updated_video_ready e video fd2 ctx hfd)
        (by rw [hpr1]; rw [hpr, hpend] at hlen; simpa using hlen)
        (by
          intro r hr
          rw [hpr1] at hr
          exact hreads r (by rw [hpr, hpend]; exact List.mem_cons_of_mem _ hr))
        (by
          intro e1 he1
          obtain ⟨h1, h2⟩ := hlocks e1 (List.mem_cons_of_mem _ he1)
          exact ⟨h1, by rw [updated_video_lock_fits e1 e video fd2 ctx hd]; exact h2⟩)
      refine ⟨v2, ?_, he, hp, hx⟩
      have hu1 : ffmpeg_update_video e video =
          some (true, updated_video e video fd2 ctx, mem) := by
        rw [hu]; simp [hcase]
      simpa [List.replicate_succ] using
        run_ops_update_cons e _ video _ v2 true _ mem hu1 hrun

/-- C10, as stated, fails. On the demo session whose container holds a packet that
the decoder only buffers followed by a packet completing a picture, the first Update
returns false although the container is not exhausted (one read is still pending,
endOfStream is false) and the surface lock would have been granted; three Updates
on this one-frame file report false, true, false. -/
theorem C10_buffered_packet_yields_no_frame :
    (ffmpeg_update_video demo_update_env (demo_opened [demo_buffered_read, demo_frame_read])).map
      (fun r => (r.1, pending_reads r.2.1, end_of_stream r.2.1)) =
        some (false, [demo_frame_read], false) ∧
    demo_update_env.al_lock_bitmap.isSome = true ∧
    (run_ops [Op.update demo_update_env, Op.update demo_update_env, Op.update demo_update_env]
        (demo_opened [demo_buffered_read, demo_frame_read])).map (fun r => r.1) =
      some [false, true, false] := by
  exact ⟨rfl, rfl, rfl⟩

/-- C10, amended. One call of `ffmpeg_update_video` on a ready session consumes
exactly one read and returns false exactly when that read failed (end of stream), the
packet did not complete a picture, or the surface lock failed. Hence on a container
whose pending packets each complete a picture (F packets, F frames), F consecutive
Updates with granted locks each return true and the next one returns false with
endOfStream true, playing false and the container exhausted. -/
theorem C10_one_read_per_update (env : UpdateEnv) (video : ALLEGRO_VIDEO)
    (hready : session_ready video = true) (hfit : lock_fits env video = true) :
    (∃ r v1 mem, ffmpeg_update_video env video = some (r, v1, mem) ∧
      pending_reads v1 = (pending_reads video).tail ∧
      (r = false ↔ (update_case env video = UpdateCase.read_failed ∨
        update_case env video = UpdateCase.not_ready ∨
        update_case env video = UpdateCase.lock_failed))) ∧
    ∀ (envs : List UpdateEnv) (last : UpdateEnv),
      envs.length = (pending_reads video).length →
      (∀ rd ∈ pending_reads video, ¬ rd.ret < 0 ∧ rd.packet.got_picture = true) →
      (∀ e ∈ envs, e.al_lock_bitmap.isSome = true ∧ lock_fits e video = true) →
      ∃ v2, run_ops (envs.map Op.update ++ [Op.update last]) video =
          some (List.replicate envs.length true ++ [false], v2) ∧
        end_of_stream v2 = true ∧ v2.playing = false ∧ pending_reads v2 = [] := by
  constructor
  · obtain ⟨fd, ctx, mem, hd, hc, hu, -⟩ := update_video_ready env video hready hfit
    have hpr : pending_reads video = ctx.pending := by simp [pending_reads, hd, hc]
    refine ⟨_, _, mem, hu, ?_, ?_⟩
    · rw [updated_video_pending, hpr]
    · cases update_case env video <;> simp
  · intro envs last hlen hreads hlocks
    exact run_all_frames envs video last hready hlen hreads hlocks

/-- C10 (amended) at the demo session with two packets that each complete a picture:
two Updates return true, the third returns false at end of stream. -/
theorem C10_one_read_per_update_witness :
    session_ready (demo_opened [demo_frame_read, demo_frame_read]) = true ∧
    lock_fits demo_update_env (demo_opened [demo_frame_read, demo_frame_read]) = true ∧
    (run_ops [Op.update demo_update_env, Op.update demo_update_env, Op.update demo_update_env]
        (demo_opened [demo_frame_read, demo_frame_read])).map (fun r => r.1) =
      some [true, true, false] ∧
    ∃ v2, run_ops ([demo_update_env, demo_update_env].map Op.update ++ [Op.update demo_update_env])
          (demo_opened [demo_frame_read, demo_frame_read]) =
          some (List.replicate [demo_update_env, demo_update_env].length true ++ [false], v2) ∧
        end_of_stream v2 = true ∧ v2.playing = false ∧ pending_reads v2 = [] :=
  ⟨rfl, rfl, rfl,
   (C10_one_read_per_update demo_update_env (demo_opened [demo_frame_read, demo_frame_read])
      rfl rfl).2 [demo_update_env, demo_update_env] demo_update_env rfl
      (by
        intro rd hrd
        have : rd = demo_frame_read := by
          simpa [pending_reads, demo_opened, opened_video, opened_data, demo_container]
            using hrd
        subst this
        exact ⟨by decide, rfl⟩)
      (by
        intro e he
        have : e = demo_update_env := by simpa using he
        subst this
        exact ⟨rfl, rfl⟩)⟩

/-- Every failure of `ffmpeg_open_video` other than the failed allocation of the
backend record is clean: each resource acquired during the call is released once
during the call, and the session is left without a backend record. -/
theorem open_video_failure_balanced (env : OpenEnv) (video v1 : ALLEGRO_VIDEO)
    (log log1 : List Event)
    (h : ffmpeg_open_video env video log = some (false, v1, log1))
    (hmem : env.avformat_open_input.isSome = true → env.al_malloc.isSome = true) :
    (∀ r, acquired r log1 + released r log = released r log1 + acquired r log ∧
      acquired r log1 ≤ acquired r log + 1) ∧
    (env.avformat_open_input.isSome = true → v1.data = none) := by
  unfold ffmpeg_open_video at h
  split at h
  · simp at h
  split at h
  · simp at h
  split at h
  · rename_i hin
    simp only [Option.some.injEq, Prod.mk.injEq, true_and] at h
    obtain ⟨hv, hl⟩ := h
    subst hv hl
    exact ⟨fun r => ⟨by omega, by omega⟩, fun hs => by rw [hin] at hs; simp at hs⟩
  rename_i ctx hctx
  simp only at h
  split at h
  · rename_i hm
    have := hmem (by rw [hctx]; rfl)
    rw [hm] at this
    simp at this
  unfold ffmpeg_open_video_codecs ffmpeg_open_video_buffers ffmpeg_open_video_finish at h
  simp only at h
  repeat' split at h
  all_goals first
    | (simp at h; done)
    | (rw [open_video_fail_some _ _ _ rfl] at h
       simp only [Option.some.injEq, Prod.mk.injEq, true_and] at h
       obtain ⟨hv, hl⟩ := h
       subst hv hl
       refine ⟨fun r => ?_, fun _ => rfl⟩
       cases r <;>
         simp [acquired_append, released_append, acquired, released,
           ffmpeg_close_video_releases, ffmpeg_data.zero] <;> omega)

/-- C4 at the opened demo session and target position 5/2. -/
theorem C4_seek_unsupported_witness :
    (demo_opened [demo_frame_read]).data.isSome = true ∧
    ffmpeg_seek_video (demo_opened [demo_frame_read]) (5 / 2) =
      some (false, demo_opened [demo_frame_read]) :=
  ⟨rfl, C4_seek_unsupported (demo_opened [demo_frame_read]) (5 / 2) rfl⟩

theorem stream_at_mem (streams : List AVStream) (idx : Int) (vs : AVStream)
    (h : stream_at streams idx = some vs) : vs ∈ streams := by
  unfold stream_at at h
  split at h
  · simp at h
  · exact List.get?_mem h

/-- A successful Open on a container whose streams have non-negative dimensions with
`3 * width * height` within a C `int` leaves a ready session. -/
theorem opened_session_ready (env : OpenEnv) (video v1 : ALLEGRO_VIDEO) (log log1 : List Event)
    (h : ffmpeg_open_video env video log = some (true, v1, log1))
    (hdims : ∀ ctx, env.avformat_open_input = some ctx → ∀ s ∈ ctx.streams,
      0 ≤ s.codec.width ∧ 0 ≤ s.codec.height ∧ s.codec.width * 3 ≤ INT_MAX ∧
      s.codec.width * 3 * s.codec.height ≤ INT_MAX) :
    session_ready v1 = true := by
  obtain ⟨f, ctx, p, vs, aus, vcodec, acodec, sws, buf, bmp, -, -, hctx, -, -, -, -, hvs, -,
    hv1, -⟩ := open_video_true env video v1 log log1 h
  obtain ⟨h1, h2, h3, h4⟩ := hdims ctx hctx vs (stream_at_mem _ _ _ hvs)
  rw [hv1]
  simp [session_ready, opened_video, opened_data, ffmpeg_data.ready, h1, h2, h3, h4]

end Ffmpeg
